import Mathlib

/-!
Shallow embedding of the NAU83G60 DSP mailbox protocol driver
(`nau8360_dsp_idle`, `nau8360_massage_to_dsp`, `nau8360_dsp_replied`,
`nau8360_reply_from_dsp`, `nau8360_send_dsp_command`,
`nau8360_dsp_kcs_setup`).  Mailbox words are natural numbers below 2^32;
byte (un)packing mirrors the driver's little-endian `u8 data[4]` /
`unsigned int` type punning.  Register reads are an oracle
`Nat → ReadRes` indexed by the read counter; writes are collected in a
trace list.  Error returns keep the driver's `errno` codes through the
`errno` map.
-/

/-- Constant from nau8360-dsp.h: the idle sentinel word. -/
def NAU8360_DSP_COMM_IDLE_WORD : Nat := 0xf4f3f2f1

/-- Constant from nau8360-dsp.h: the 2-byte frame preamble. -/
def NAU8360_DSP_COMM_PREAMBLE : Nat := 0xb2a1

/-- Constant from nau8360-dsp.h: bytes per mailbox word. -/
def NAU8360_DSP_DATA_BYTE : Nat := 4

/-- Constant from nau8360-dsp.h: per-chunk transport cap. -/
def NAU8360_DSP_KCS_TX_MAX : Nat := 96

/-- Constant from nau8360-dsp.h: retry budget of the KCS uploader. -/
def NAU8360_DSP_RETRY_MAX : Nat := 3

/-- Constant from nau8360-dsp.h: maximum KCS data length per call. -/
def NAU8360_DSP_KCS_DAT_LEN_MAX : Nat := 1024

/-- Constant from nau8360-dsp.h: maximum KCS offset. -/
def NAU8360_DSP_KCS_OFFSET_MAX : Nat := 3072

/-- Constant from the driver: retries of the idle/reply polling loops. -/
def NAU8360_DSP_IDLE_RETRY : Nat := 10

/-- Command id enum values from nau8360-dsp.h. -/
def NAU8360_DSP_CMD_GET_COUNTER : Nat := 0x1

def NAU8360_DSP_CMD_GET_FRAME_STATUS : Nat := 0x9

def NAU8360_DSP_CMD_GET_REVISION : Nat := 0xa

def NAU8360_DSP_CMD_GET_KCS_RSLTS : Nat := 0x4

def NAU8360_DSP_CMD_GET_KCS_SETUP : Nat := 0x6

def NAU8360_DSP_CMD_SET_KCS_SETUP : Nat := 0x7

def NAU8360_DSP_CMD_CLK_STOP : Nat := 0xb

def NAU8360_DSP_CMD_CLK_RESTART : Nat := 0xc

/-- Error results of the driver functions.  Each constructor corresponds to
one family of `return` sites; `errno` below recovers the integer error code
the C functions actually return. -/
inductive Err where
  | einval
  | efault
  | erange
  | ioErr (e : Int)
  | timeout
  | protocol
  | reply (rid : Nat)
deriving DecidableEq, Repr

/-- The integer error code each `Err` surfaces as in the C driver:
`-EINVAL`, `-EFAULT`, `-ERANGE`, the register layer's own code, `-EIO`
at the polling-exhaustion sites, `-EPROTO`, and `-reply_id`. -/
def errno : Err → Int
  | .einval => -22
  | .efault => -14
  | .erange => -34
  | .ioErr e => e
  | .timeout => -5
  | .protocol => -71
  | .reply rid => -(rid : Int)

/-- The spec's `Invalid` error kind: caller errors caught before I/O
(`-EINVAL`, `-EFAULT`, `-ERANGE`). -/
def Err.isInvalid : Err → Bool
  | .einval => true
  | .efault => true
  | .erange => true
  | _ => false

/-- Result of one register read: the word, or the register layer's error. -/
inductive ReadRes where
  | ok (w : Nat)
  | fail (e : Int)
deriving DecidableEq, Repr

/-- The register-read oracle: result of the i-th read of the mailbox. -/
abbrev Oracle := Nat → ReadRes

/-- `struct nau8360_cmd_info`. -/
structure CmdInfo where
  cmd_id : Nat
  msg_param : Bool
  setup_data : Bool
  reply_data : Bool
deriving DecidableEq, Repr

/-- `nau8360_dsp_commands`: the supported command-id switch. -/
def nau8360_dsp_commands (cmd_id : Nat) : Bool :=
  cmd_id == NAU8360_DSP_CMD_GET_COUNTER ||
  cmd_id == NAU8360_DSP_CMD_GET_FRAME_STATUS ||
  cmd_id == NAU8360_DSP_CMD_GET_REVISION ||
  cmd_id == NAU8360_DSP_CMD_GET_KCS_RSLTS ||
  cmd_id == NAU8360_DSP_CMD_GET_KCS_SETUP ||
  cmd_id == NAU8360_DSP_CMD_SET_KCS_SETUP ||
  cmd_id == NAU8360_DSP_CMD_CLK_STOP ||
  cmd_id == NAU8360_DSP_CMD_CLK_RESTART

/-- `nau8360_dsp_cmd_table`: flags per command id (designated initializers;
unlisted slots are zero-initialized). -/
def nau8360_dsp_cmd_table (cmd_id : Nat) : CmdInfo :=
  if cmd_id = NAU8360_DSP_CMD_GET_COUNTER then ⟨0x1, false, false, true⟩
  else if cmd_id = NAU8360_DSP_CMD_GET_FRAME_STATUS then ⟨0x9, false, false, true⟩
  else if cmd_id = NAU8360_DSP_CMD_GET_REVISION then ⟨0xa, false, false, true⟩
  else if cmd_id = NAU8360_DSP_CMD_GET_KCS_RSLTS then ⟨0x4, true, false, true⟩
  else if cmd_id = NAU8360_DSP_CMD_GET_KCS_SETUP then ⟨0x6, true, false, true⟩
  else if cmd_id = NAU8360_DSP_CMD_SET_KCS_SETUP then ⟨0x7, true, true, true⟩
  else if cmd_id = NAU8360_DSP_CMD_CLK_STOP then ⟨0xb, false, false, false⟩
  else if cmd_id = NAU8360_DSP_CMD_CLK_RESTART then ⟨0xc, false, false, false⟩
  else ⟨0, false, false, false⟩

/-- Little-endian byte 0 of a mailbox word (`buf[0]` after the punning). -/
def byte0 (w : Nat) : Nat := w % 256

/-- Little-endian byte 1 of a mailbox word. -/
def byte1 (w : Nat) : Nat := w / 256 % 256

/-- Little-endian byte 2 of a mailbox word. -/
def byte2 (w : Nat) : Nat := w / 65536 % 256

/-- Little-endian byte 3 of a mailbox word. -/
def byte3 (w : Nat) : Nat := w / 16777216 % 256

/-- Pack four bytes into a word, little-endian (`*(unsigned int *)&data[0]`). -/
def pack4 (b0 b1 b2 b3 : Nat) : Nat := b0 + 256 * b1 + 65536 * b2 + 16777216 * b3

/-- The four little-endian bytes of a word, in transmission order. -/
def wordBytes (w : Nat) : List Nat := [byte0 w, byte1 w, byte2 w, byte3 w]

/-- The preamble word built in `nau8360_massage_to_dsp`:
`[pre][pre>>8][(cmd_id<<2)|(frag_len&3)][frag_len>>2]`, each byte
truncated by the `u8` store. -/
def preambleWord (id frag_len : Nat) : Nat :=
  pack4 (NAU8360_DSP_COMM_PREAMBLE % 256) ((NAU8360_DSP_COMM_PREAMBLE >>> 8) % 256)
    (((id <<< 2) ||| (frag_len &&& 0x3)) % 256) ((frag_len >>> 2) % 256)

/-- The parameter-descriptor word: `[offset][offset>>8][size][size>>8]`. -/
def paramWord (off sz : Nat) : Nat :=
  pack4 (off % 256) ((off >>> 8) % 256) (sz % 256) ((sz >>> 8) % 256)

/-- The trailing word: `[frag_cnt][((frag_cnt>>8)<<6)|(padding<<4)][0][0]`. -/
def trailerWord (frag_cnt padding : Nat) : Nat :=
  pack4 (frag_cnt % 256) ((((frag_cnt >>> 8) <<< 6) ||| (padding <<< 4)) % 256) 0 0

/-- The setup-payload words: 4 source bytes per word, the final partial
word zero-padded (the driver clears `*value` and fills `data[i % 4]`). -/
def chunk4 : List Nat → List Nat
  | [] => []
  | [b0] => [pack4 b0 0 0 0]
  | [b0, b1] => [pack4 b0 b1 0 0]
  | [b0, b1, b2] => [pack4 b0 b1 b2 0]
  | b0 :: b1 :: b2 :: b3 :: rest => pack4 b0 b1 b2 b3 :: chunk4 rest

/-- Padding bytes recorded for a payload of `L` bytes: `0` when `L` is a
multiple of 4, else `4 - L % 4` (the driver's `data_size` bookkeeping). -/
def padLen (L : Nat) : Nat :=
  if L % NAU8360_DSP_DATA_BYTE = 0 then 0 else NAU8360_DSP_DATA_BYTE - L % NAU8360_DSP_DATA_BYTE

/-- The running `frag_cnt` of `nau8360_massage_to_dsp` at the trailer:
one for the descriptor, one per payload word, one for the trailer. -/
def msgFragCnt (info : CmdInfo) (bs : List Nat) : Nat :=
  1 + (if info.setup_data then (chunk4 bs).length else 0) + 1

/-- The `padding` value of `nau8360_massage_to_dsp` at the trailer. -/
def msgPadding (info : CmdInfo) (bs : List Nat) : Nat :=
  if info.setup_data then padLen bs.length else 0

/-- The word sequence `nau8360_massage_to_dsp` writes: preamble, then
(when `msg_param`) descriptor, payload words (when `setup_data`), trailer. -/
def massageWords (info : CmdInfo) (frag_len off sz : Nat) (bs : List Nat) : List Nat :=
  preambleWord info.cmd_id frag_len ::
    (if info.msg_param then
      paramWord off sz ::
        ((if info.setup_data then chunk4 bs else []) ++
          [trailerWord (msgFragCnt info bs) (msgPadding info bs)])
    else [])

/-- `frag_len` as precomputed in `nau8360_send_dsp_command`: 2 when the
command has a parameter (descriptor + trailer), plus `ceil(set_len/4)`
payload words when it carries setup data. -/
def sendFragLen (info : CmdInfo) (set_len : Nat) : Nat :=
  (if info.msg_param then 2 else 0) +
    (if info.setup_data then
      (set_len + NAU8360_DSP_DATA_BYTE - 1) / NAU8360_DSP_DATA_BYTE
    else 0)

/-- Reply-id extraction of `nau8360_dsp_replied`: `b[2] >> 2`. -/
def preambleIdOf (w : Nat) : Nat := byte2 w >>> 2

/-- Length extraction of `nau8360_dsp_replied`:
`(b[2] & 0x3) | (b[3] << 2)`. -/
def preambleLenOf (w : Nat) : Nat := (byte2 w &&& 0x3) ||| (byte3 w <<< 2)

/-- Preamble test of `nau8360_dsp_replied`: bytes 0/1 match the constant. -/
def isPreamble (w : Nat) : Bool :=
  byte0 w == NAU8360_DSP_COMM_PREAMBLE % 256 &&
    byte1 w == NAU8360_DSP_COMM_PREAMBLE >>> 8

/-- Trailer length extraction of `nau8360_reply_from_dsp`:
`b[0] | ((b[1] & 0xc0) << 2)`. -/
def trailLenOf (w : Nat) : Nat := byte0 w ||| ((byte1 w &&& 0xc0) <<< 2)

/-- Trailer padding extraction of `nau8360_reply_from_dsp`:
`(b[1] & 0x30) >> 4`. -/
def trailPadOf (w : Nat) : Nat := (byte1 w &&& 0x30) >>> 4

/-- Modelled from the spec: the driver has no decoder for the
parameter-descriptor word of a Message Frame (only the DSP consumes it);
the spec's wire format `[offsetLo][offsetHi][sizeLo][sizeHi]` gives the
little-endian offset read-back. -/
def paramOffOf (w : Nat) : Nat := byte0 w ||| (byte1 w <<< 8)

/-- Modelled from the spec: little-endian size read-back of the
parameter-descriptor word (see `paramOffOf`). -/
def paramSizeOf (w : Nat) : Nat := byte2 w ||| (byte3 w <<< 8)

theorem lor_shiftLeft_eq_add (n k r : Nat) (h : r < 2 ^ n) :
    (k <<< n) ||| r = k * 2 ^ n + r := by
  rw [Nat.shiftLeft_eq, Nat.mul_comm k (2 ^ n), ← Nat.mul_add_lt_is_or h k,
    Nat.mul_comm (2 ^ n) k]

theorem lor_shiftLeft_eq_add' (n k r : Nat) (h : r < 2 ^ n) :
    r ||| (k <<< n) = k * 2 ^ n + r := by
  rw [Nat.lor_comm]; exact lor_shiftLeft_eq_add n k r h

theorem land_three (x : Nat) : x &&& 3 = x % 4 := by
  simpa using Nat.and_pow_two_sub_one_eq_mod x 2

theorem byte0_pack4 (b0 b1 b2 b3 : Nat) (h0 : b0 < 256) :
    byte0 (pack4 b0 b1 b2 b3) = b0 := by
  simp only [byte0, pack4]; omega

theorem byte1_pack4 (b0 b1 b2 b3 : Nat) (h0 : b0 < 256) (h1 : b1 < 256) :
    byte1 (pack4 b0 b1 b2 b3) = b1 := by
  simp only [byte1, pack4]; omega

theorem byte2_pack4 (b0 b1 b2 b3 : Nat) (h0 : b0 < 256) (h1 : b1 < 256)
    (h2 : b2 < 256) : byte2 (pack4 b0 b1 b2 b3) = b2 := by
  simp only [byte2, pack4]; omega

theorem byte3_pack4 (b0 b1 b2 b3 : Nat) (h0 : b0 < 256) (h1 : b1 < 256)
    (h2 : b2 < 256) (h3 : b3 < 256) : byte3 (pack4 b0 b1 b2 b3) = b3 := by
  simp only [byte3, pack4]; omega

theorem wordBytes_pack4 (b0 b1 b2 b3 : Nat) (h0 : b0 < 256) (h1 : b1 < 256)
    (h2 : b2 < 256) (h3 : b3 < 256) :
    wordBytes (pack4 b0 b1 b2 b3) = [b0, b1, b2, b3] := by
  simp [wordBytes, byte0_pack4, byte1_pack4, byte2_pack4, byte3_pack4, h0, h1, h2, h3]

theorem isPreamble_preambleWord (id f : Nat) :
    isPreamble (preambleWord id f) = true := by
  simp only [isPreamble, preambleWord, NAU8360_DSP_COMM_PREAMBLE]
  rw [byte0_pack4 _ _ _ _ (by decide), byte1_pack4 _ _ _ _ (by decide) (by decide)]
  decide

theorem preambleIdOf_preambleWord (id f : Nat) :
    preambleIdOf (preambleWord id f) = id % 64 := by
  simp only [preambleIdOf, preambleWord]
  rw [byte2_pack4 _ _ _ _ (by decide) (by decide) (Nat.mod_lt _ (by decide))]
  rw [land_three, lor_shiftLeft_eq_add 2 id (f % 4) (by omega)]
  rw [Nat.shiftRight_eq_div_pow]
  omega

theorem preambleLenOf_preambleWord (id f : Nat) :
    preambleLenOf (preambleWord id f) = f % 1024 := by
  simp only [preambleLenOf, preambleWord]
  rw [byte2_pack4 _ _ _ _ (by decide) (by decide) (Nat.mod_lt _ (by decide)),
    byte3_pack4 _ _ _ _ (by decide) (by decide) (Nat.mod_lt _ (by decide))
      (Nat.mod_lt _ (by decide))]
  rw [land_three f, lor_shiftLeft_eq_add 2 id (f % 4) (by omega), land_three]
  have h1 : (id * 2 ^ 2 + f % 4) % 256 % 4 = f % 4 := by omega
  rw [h1, Nat.shiftRight_eq_div_pow,
    lor_shiftLeft_eq_add' 2 (f / 2 ^ 2 % 256) (f % 4) (by omega)]
  omega

theorem paramOffOf_paramWord (off sz : Nat) :
    paramOffOf (paramWord off sz) = off % 65536 := by
  simp only [paramOffOf, paramWord]
  rw [byte0_pack4 _ _ _ _ (Nat.mod_lt _ (by decide)),
    byte1_pack4 _ _ _ _ (Nat.mod_lt _ (by decide)) (Nat.mod_lt _ (by decide))]
  rw [Nat.shiftRight_eq_div_pow,
    lor_shiftLeft_eq_add' 8 (off / 2 ^ 8 % 256) (off % 256) (by omega)]
  omega

theorem paramSizeOf_paramWord (off sz : Nat) :
    paramSizeOf (paramWord off sz) = sz % 65536 := by
  simp only [paramSizeOf, paramWord]
  rw [byte2_pack4 _ _ _ _ (Nat.mod_lt _ (by decide)) (Nat.mod_lt _ (by decide))
      (Nat.mod_lt _ (by decide)),
    byte3_pack4 _ _ _ _ (Nat.mod_lt _ (by decide)) (Nat.mod_lt _ (by decide))
      (Nat.mod_lt _ (by decide)) (Nat.mod_lt _ (by decide))]
  rw [Nat.shiftRight_eq_div_pow,
    lor_shiftLeft_eq_add' 8 (sz / 2 ^ 8 % 256) (sz % 256) (by omega)]
  omega

theorem byte1_trailerWord (fc p : Nat) (hp : p < 4) :
    byte1 (trailerWord fc p) = 64 * (fc / 256 % 4) + 16 * p := by
  simp only [trailerWord]
  rw [byte1_pack4 _ _ _ _ (Nat.mod_lt _ (by decide)) (Nat.mod_lt _ (by decide))]
  rw [Nat.shiftRight_eq_div_pow,
    lor_shiftLeft_eq_add 6 (fc / 2 ^ 8) (p <<< 4) (by rw [Nat.shiftLeft_eq]; omega)]
  rw [Nat.shiftLeft_eq]
  omega

theorem trailLenOf_trailerWord (fc p : Nat) (hp : p < 4) :
    trailLenOf (trailerWord fc p) = fc % 1024 := by
  have hb1 := byte1_trailerWord fc p hp
  simp only [trailLenOf] at *
  rw [hb1]
  have hb0 : byte0 (trailerWord fc p) = fc % 256 := by
    simp only [trailerWord]
    exact byte0_pack4 _ _ _ _ (Nat.mod_lt _ (by decide))
  rw [hb0]
  have hland : (64 * (fc / 256 % 4) + 16 * p) &&& 0xc0 = 64 * (fc / 256 % 4) := by
    have h4 : fc / 256 % 4 < 4 := Nat.mod_lt _ (by decide)
    interval_cases h : fc / 256 % 4 <;> interval_cases p <;> decide
  rw [hland]
  have hsl : (64 * (fc / 256 % 4)) <<< 2 = (fc / 256 % 4) <<< 8 := by
    rw [Nat.shiftLeft_eq, Nat.shiftLeft_eq]; ring
  rw [hsl, lor_shiftLeft_eq_add' 8 (fc / 256 % 4) (fc % 256) (by omega)]
  omega

theorem trailPadOf_trailerWord (fc p : Nat) (hp : p < 4) :
    trailPadOf (trailerWord fc p) = p := by
  have hb1 := byte1_trailerWord fc p hp
  simp only [trailPadOf]
  rw [hb1]
  have h4 : fc / 256 % 4 < 4 := Nat.mod_lt _ (by decide)
  interval_cases h : fc / 256 % 4 <;> interval_cases p <;> decide

theorem chunk4_length (bs : List Nat) : (chunk4 bs).length = (bs.length + 3) / 4 := by
  induction bs using chunk4.induct <;> simp [chunk4, *] <;> omega

theorem padLen_eq (L : Nat) : padLen L = 4 * ((L + 3) / 4) - L := by
  simp only [padLen, NAU8360_DSP_DATA_BYTE]
  split <;> omega

theorem padLen_le (L : Nat) : padLen L ≤ 3 := by
  simp only [padLen, NAU8360_DSP_DATA_BYTE]
  split <;> omega

theorem chunk4_flatten (bs : List Nat) (h : ∀ b ∈ bs, b < 256) :
    ((chunk4 bs).map wordBytes).flatten = bs ++ List.replicate (padLen bs.length) 0 := by
  induction bs using chunk4.induct with
  | case1 => simp [chunk4, padLen, NAU8360_DSP_DATA_BYTE]
  | case2 b0 =>
    have h0 : b0 < 256 := h b0 (by simp)
    simp [chunk4, wordBytes_pack4 b0 0 0 0 h0 (by decide) (by decide) (by decide),
      padLen, NAU8360_DSP_DATA_BYTE]
  | case3 b0 b1 =>
    have h0 : b0 < 256 := h b0 (by simp)
    have h1 : b1 < 256 := h b1 (by simp)
    simp [chunk4, wordBytes_pack4 b0 b1 0 0 h0 h1 (by decide) (by decide),
      padLen, NAU8360_DSP_DATA_BYTE]
  | case4 b0 b1 b2 =>
    have h0 : b0 < 256 := h b0 (by simp)
    have h1 : b1 < 256 := h b1 (by simp)
    have h2 : b2 < 256 := h b2 (by simp)
    simp [chunk4, wordBytes_pack4 b0 b1 b2 0 h0 h1 h2 (by decide),
      padLen, NAU8360_DSP_DATA_BYTE]
  | case5 b0 b1 b2 b3 rest ih =>
    have h0 : b0 < 256 := h b0 (by simp)
    have h1 : b1 < 256 := h b1 (by simp)
    have h2 : b2 < 256 := h b2 (by simp)
    have h3 : b3 < 256 := h b3 (by simp)
    have hrest : ∀ b ∈ rest, b < 256 := fun b hb => h b (by simp [hb])
    have hpad : padLen (rest.length + 1 + 1 + 1 + 1) = padLen rest.length := by
      simp only [padLen, NAU8360_DSP_DATA_BYTE]
      have hmod : (rest.length + 1 + 1 + 1 + 1) % 4 = rest.length % 4 := by omega
      rw [hmod]
    simp [chunk4, wordBytes_pack4 b0 b1 b2 b3 h0 h1 h2 h3, ih hrest, hpad]

/-- Decoding a Message Frame.  The preamble and trailer field extractions
and the byte-stream payload reassembly are the ones `nau8360_dsp_replied`
and `nau8360_reply_from_dsp` perform on reply frames (the two frame kinds
share the layout); the descriptor fields are read back per `paramOffOf` /
`paramSizeOf`.  Returns the opcode, the preamble fragment count and, for
parameterised frames, offset, size, the first `size` payload bytes and
the trailer padding field; `none` on any malformed frame. -/
def msgDecode (msg_param : Bool) (ws : List Nat) :
    Option (Nat × Nat × Option (Nat × Nat × List Nat × Nat)) :=
  match ws with
  | [] => none
  | w0 :: rest =>
    if isPreamble w0 = false then none
    else
      let op := preambleIdOf w0
      let fl := preambleLenOf w0
      if msg_param = false then
        if rest.isEmpty then some (op, fl, none) else none
      else
        match rest with
        | [] => none
        | wD :: mid =>
          match mid.getLast? with
          | none => none
          | some wT =>
            if trailLenOf wT ≠ fl then none
            else
              some (op, fl, some (paramOffOf wD, paramSizeOf wD,
                ((mid.dropLast.map wordBytes).flatten).take (paramSizeOf wD),
                trailPadOf wT))

theorem msgDecode_noparam (id f : Nat) (hid : id < 64) (hf : f < 1024) :
    msgDecode false [preambleWord id f] = some (id, f, none) := by
  simp [msgDecode, isPreamble_preambleWord, preambleIdOf_preambleWord,
    preambleLenOf_preambleWord, Nat.mod_eq_of_lt hid, Nat.mod_eq_of_lt hf]

theorem msgDecode_param (id f off sz fc p : Nat) (ps : List Nat)
    (hid : id < 64) (hf : f < 1024) (hoff : off < 65536) (hsz : sz < 65536)
    (hp : p < 4) (hfc : fc % 1024 = f) :
    msgDecode true
        (preambleWord id f :: paramWord off sz :: (ps ++ [trailerWord fc p])) =
      some (id, f, some (off, sz, ((ps.map wordBytes).flatten).take sz, p)) := by
  simp only [msgDecode, isPreamble_preambleWord, preambleIdOf_preambleWord,
    preambleLenOf_preambleWord, Nat.mod_eq_of_lt hid, Nat.mod_eq_of_lt hf,
    List.getLast?_concat, trailLenOf_trailerWord fc p hp, hfc,
    trailPadOf_trailerWord fc p hp, List.dropLast_concat,
    paramOffOf_paramWord, paramSizeOf_paramWord,
    Nat.mod_eq_of_lt hoff, Nat.mod_eq_of_lt hsz]
  simp

/-- C1: encoding a Message Frame for any supported opcode, any
16-bit-representable parameter offset, and any setup payload of at most
400 bytes, then decoding the produced word sequence, reconstructs the
opcode, the parameter offset and size (when the command carries a
parameter), the payload bytes (when it carries setup data) and a trailer
padding field equal to `4*ceil(L/4) - L`. -/
theorem c1_encode_decode_roundtrip (cmd off : Nat) (bs : List Nat)
    (hc : nau8360_dsp_commands cmd = true) (hoff : off < 65536)
    (hbytes : ∀ b ∈ bs, b < 256) (hlen : bs.length ≤ 400) :
    msgDecode (nau8360_dsp_cmd_table cmd).msg_param
        (massageWords (nau8360_dsp_cmd_table cmd)
          (sendFragLen (nau8360_dsp_cmd_table cmd) bs.length) off bs.length bs) =
      some (cmd, sendFragLen (nau8360_dsp_cmd_table cmd) bs.length,
        if (nau8360_dsp_cmd_table cmd).msg_param then
          some (off, bs.length,
            (if (nau8360_dsp_cmd_table cmd).setup_data then bs else []),
            (if (nau8360_dsp_cmd_table cmd).setup_data then
              4 * ((bs.length + 3) / 4) - bs.length else 0))
        else none) := by
  have hsz : bs.length < 65536 := by omega
  simp only [nau8360_dsp_commands, NAU8360_DSP_CMD_GET_COUNTER,
    NAU8360_DSP_CMD_GET_FRAME_STATUS, NAU8360_DSP_CMD_GET_REVISION,
    NAU8360_DSP_CMD_GET_KCS_RSLTS, NAU8360_DSP_CMD_GET_KCS_SETUP,
    NAU8360_DSP_CMD_SET_KCS_SETUP, NAU8360_DSP_CMD_CLK_STOP,
    NAU8360_DSP_CMD_CLK_RESTART, Bool.or_eq_true, beq_iff_eq] at hc
  rcases hc with ((((((h | h) | h) | h) | h) | h) | h) | h <;> subst h
  · rw [show nau8360_dsp_cmd_table 0x1 = ⟨0x1, false, false, true⟩ from rfl]
    simpa [massageWords, sendFragLen] using msgDecode_noparam 0x1 0 (by decide) (by decide)
  · rw [show nau8360_dsp_cmd_table 0x9 = ⟨0x9, false, false, true⟩ from rfl]
    simpa [massageWords, sendFragLen] using msgDecode_noparam 0x9 0 (by decide) (by decide)
  · rw [show nau8360_dsp_cmd_table 0xa = ⟨0xa, false, false, true⟩ from rfl]
    simpa [massageWords, sendFragLen] using msgDecode_noparam 0xa 0 (by decide) (by decide)
  · rw [show nau8360_dsp_cmd_table 0x4 = ⟨0x4, true, false, true⟩ from rfl]
    have h2 : sendFragLen ⟨0x4, true, false, true⟩ bs.length = 2 := by
      simp [sendFragLen]
    have hm : msgFragCnt ⟨0x4, true, false, true⟩ bs = 2 := by simp [msgFragCnt]
    have hpd : msgPadding ⟨0x4, true, false, true⟩ bs = 0 := by simp [msgPadding]
    simp only [massageWords, h2, hm, hpd]
    simpa using msgDecode_param 0x4 2 off bs.length 2 0 []
      (by decide) (by decide) hoff hsz (by decide) (by decide)
  · rw [show nau8360_dsp_cmd_table 0x6 = ⟨0x6, true, false, true⟩ from rfl]
    have h2 : sendFragLen ⟨0x6, true, false, true⟩ bs.length = 2 := by
      simp [sendFragLen]
    have hm : msgFragCnt ⟨0x6, true, false, true⟩ bs = 2 := by simp [msgFragCnt]
    have hpd : msgPadding ⟨0x6, true, false, true⟩ bs = 0 := by simp [msgPadding]
    simp only [massageWords, h2, hm, hpd]
    simpa using msgDecode_param 0x6 2 off bs.length 2 0 []
      (by decide) (by decide) hoff hsz (by decide) (by decide)
  · rw [show nau8360_dsp_cmd_table 0x7 = ⟨0x7, true, true, true⟩ from rfl]
    have hfl : sendFragLen ⟨0x7, true, true, true⟩ bs.length = 2 + (bs.length + 3) / 4 := by
      simp [sendFragLen, NAU8360_DSP_DATA_BYTE]
    have hm : msgFragCnt ⟨0x7, true, true, true⟩ bs = 2 + (bs.length + 3) / 4 := by
      simp [msgFragCnt, chunk4_length]
      omega
    have hpd : msgPadding ⟨0x7, true, true, true⟩ bs = padLen bs.length := by
      simp [msgPadding]
    have hfsmall : 2 + (bs.length + 3) / 4 < 1024 := by omega
    simp only [massageWords, hfl, hm, hpd]
    have hdec := msgDecode_param 0x7 (2 + (bs.length + 3) / 4) off bs.length
      (2 + (bs.length + 3) / 4) (padLen bs.length) (chunk4 bs)
      (by decide) hfsmall hoff hsz (by have := padLen_le bs.length; omega)
      (Nat.mod_eq_of_lt hfsmall)
    have htake : (bs ++ List.replicate (padLen bs.length) 0).take bs.length = bs := by
      simpa using List.take_left bs (List.replicate (padLen bs.length) 0)
    simpa [chunk4_flatten bs hbytes, htake, padLen_eq] using hdec
  · rw [show nau8360_dsp_cmd_table 0xb = ⟨0xb, false, false, false⟩ from rfl]
    simpa [massageWords, sendFragLen] using msgDecode_noparam 0xb 0 (by decide) (by decide)
  · rw [show nau8360_dsp_cmd_table 0xc = ⟨0xc, false, false, false⟩ from rfl]
    simpa [massageWords, sendFragLen] using msgDecode_noparam 0xc 0 (by decide) (by decide)

/-- C2: for a setup payload of length `L`, the encoder emits exactly
`ceil(L/4)` payload words (4 bytes per word, final partial word
zero-padded), the recorded padding equals `4*ceil(L/4) - L` (a value in
0..3), the full SET_KCS_SETUP frame carries `3 + ceil(L/4)` words, and
the trailer word's padding field decodes back to exactly that value. -/
theorem c2_fragment_invariant (off : Nat) (bs : List Nat) :
    (chunk4 bs).length = (bs.length + 3) / 4 ∧
    msgPadding (nau8360_dsp_cmd_table NAU8360_DSP_CMD_SET_KCS_SETUP) bs =
      4 * ((bs.length + 3) / 4) - bs.length ∧
    4 * ((bs.length + 3) / 4) - bs.length ≤ 3 ∧
    (massageWords (nau8360_dsp_cmd_table NAU8360_DSP_CMD_SET_KCS_SETUP)
        (sendFragLen (nau8360_dsp_cmd_table NAU8360_DSP_CMD_SET_KCS_SETUP) bs.length)
        off bs.length bs).length = 3 + (bs.length + 3) / 4 ∧
    trailPadOf (trailerWord
        (msgFragCnt (nau8360_dsp_cmd_table NAU8360_DSP_CMD_SET_KCS_SETUP) bs)
        (msgPadding (nau8360_dsp_cmd_table NAU8360_DSP_CMD_SET_KCS_SETUP) bs)) =
      4 * ((bs.length + 3) / 4) - bs.length ∧
    ((∀ b ∈ bs, b < 256) →
      ((chunk4 bs).map wordBytes).flatten =
        bs ++ List.replicate (4 * ((bs.length + 3) / 4) - bs.length) 0) := by
  rw [show nau8360_dsp_cmd_table NAU8360_DSP_CMD_SET_KCS_SETUP =
    ⟨0x7, true, true, true⟩ from rfl]
  have hple := padLen_le bs.length
  have hpeq := padLen_eq bs.length
  refine ⟨chunk4_length bs, ?_, ?_, ?_, ?_, ?_⟩
  · simpa [msgPadding] using hpeq
  · omega
  · simp [massageWords, chunk4_length]
    omega
  · have hp : msgPadding ⟨0x7, true, true, true⟩ bs < 4 := by
      simp [msgPadding]
      omega
    rw [trailPadOf_trailerWord _ _ hp]
    simpa [msgPadding] using hpeq
  · intro h
    simpa [hpeq] using chunk4_flatten bs h

/-- The polling loop of `nau8360_dsp_idle`: read the mailbox until the
idle word appears, up to `fuel` reads; a failed read surfaces the
register error, exhaustion surfaces `-EIO` (timeout).  Returns the next
read index with the outcome. -/
def idleLoop (rd : Oracle) : Nat → Nat → Nat × Except Err Unit
  | 0, idx => (idx, .error .timeout)
  | fuel + 1, idx =>
    match rd idx with
    | .fail e => (idx + 1, .error (.ioErr e))
    | .ok w =>
      if w = NAU8360_DSP_COMM_IDLE_WORD then (idx + 1, .ok ())
      else idleLoop rd fuel (idx + 1)

/-- `nau8360_dsp_idle`: poll for the idle pattern with 10 retries. -/
def nau8360_dsp_idle (rd : Oracle) (idx : Nat) : Nat × Except Err Unit :=
  idleLoop rd NAU8360_DSP_IDLE_RETRY idx

/-- Outcome of `nau8360_massage_to_dsp`: words written to the mailbox,
next read index, and the function's result. -/
structure MsgRun where
  writes : List Nat
  nextIdx : Nat
  result : Except Err Unit
deriving Repr

/-- `nau8360_massage_to_dsp`: wait for idle, then write the frame; a
command without `msg_param` is done right after the preamble; otherwise
the running fragment counter is cross-checked against `frag_len` after
the trailer is written (`-EPROTO` on mismatch). -/
def nau8360_massage_to_dsp (rd : Oracle) (info : CmdInfo) (frag_len off sz : Nat)
    (bs : List Nat) (idx : Nat) : MsgRun :=
  match nau8360_dsp_idle rd idx with
  | (idx1, .error e) => ⟨[], idx1, .error e⟩
  | (idx1, .ok _) =>
    if info.msg_param = false then ⟨[preambleWord info.cmd_id frag_len], idx1, .ok ()⟩
    else
      let ws := massageWords info frag_len off sz bs
      if msgFragCnt info bs = frag_len then ⟨ws, idx1, .ok ()⟩
      else ⟨ws, idx1, .error .protocol⟩

/-- The polling loop of `nau8360_dsp_replied`: read until a word whose
low two bytes match the preamble constant, up to `fuel` reads; on a hit
return the reply id and the fragment count from the remaining bits. -/
def repliedLoop (rd : Oracle) : Nat → Nat → Nat × Except Err (Nat × Nat)
  | 0, idx => (idx, .error .timeout)
  | fuel + 1, idx =>
    match rd idx with
    | .fail e => (idx + 1, .error (.ioErr e))
    | .ok w =>
      if isPreamble w then (idx + 1, .ok (preambleIdOf w, preambleLenOf w))
      else repliedLoop rd fuel (idx + 1)

/-- `nau8360_dsp_replied`: poll for the reply preamble; a non-zero reply
id fails with `-reply_id`, otherwise the fragment count is returned. -/
def nau8360_dsp_replied (rd : Oracle) (idx : Nat) : Nat × Except Err Nat :=
  match repliedLoop rd NAU8360_DSP_IDLE_RETRY idx with
  | (idx1, .error e) => (idx1, .error e)
  | (idx1, .ok (rid, len)) =>
    if rid = 0 then (idx1, .ok len) else (idx1, .error (.reply rid))

/-- Write `bytes` into `buf` starting at byte position `pos`. -/
def setBytesAt (buf : List Nat) (pos : Nat) (bytes : List Nat) : List Nat :=
  buf.take pos ++ bytes ++ buf.drop (pos + bytes.length)

/-- State of the payload-reading loop of `nau8360_reply_from_dsp`:
output byte position (`data_buf` cursor), remaining requested byte count
(`data_count`, only meaningful for `msg_param` commands), caller buffer
contents, and next read index. -/
structure ReplySt where
  pos : Nat
  cnt : Int
  buf : List Nat
  idx : Nat
deriving Repr

/-- The payload loop of `nau8360_reply_from_dsp` over `fuel` declared
payload words.  With `msg_param`: a full word is stored and the cursor
advances while `data_count >= 4`; otherwise the final partial word
stores one byte per `data_count` decrement (at least one) and the loop
breaks.  Without `msg_param` every word is stored at the start of the
buffer and the cursor never advances. -/
def replyPayloadLoop (rd : Oracle) (mp : Bool) : Nat → ReplySt → ReplySt × Option Err
  | 0, st => (st, none)
  | fuel + 1, st =>
    match rd st.idx with
    | .fail e => (⟨st.pos, st.cnt, st.buf, st.idx + 1⟩, some (.ioErr e))
    | .ok w =>
      if mp then
        if st.cnt ≥ 4 then
          replyPayloadLoop rd mp fuel
            ⟨st.pos + 4, st.cnt - 4, setBytesAt st.buf st.pos (wordBytes w), st.idx + 1⟩
        else
          let k := if st.cnt ≥ 1 then st.cnt.toNat else 1
          (⟨st.pos, st.cnt - k, setBytesAt st.buf st.pos ((wordBytes w).take k),
            st.idx + 1⟩, none)
      else
        replyPayloadLoop rd mp fuel
          ⟨st.pos, st.cnt, setBytesAt st.buf 0 (wordBytes w), st.idx + 1⟩

/-- Outcome of `nau8360_reply_from_dsp`: final caller-buffer contents,
next read index, and the function's result. -/
structure ReplyRun where
  buf : List Nat
  nextIdx : Nat
  result : Except Err Unit
deriving Repr

/-- `nau8360_reply_from_dsp`: for a command without reply data, probe the
reply and finish on a zero-length one (falling through otherwise); check
the caller buffer; poll the reply preamble; read the declared payload
words; read the trailer and check its restated fragment count against
the preamble's and its padding field against
`frag_payload_len*4 - (data_size - data_count)` (with `msg_param`) or 0,
failing `-EPROTO` on either mismatch. -/
def nau8360_reply_from_dsp (rd : Oracle) (info : CmdInfo) (data_size : Nat)
    (data : Option (List Nat)) (idx : Nat) : ReplyRun :=
  let front : Nat × Option (Except Err Unit) :=
    if info.reply_data = false then
      match nau8360_dsp_replied rd idx with
      | (idx1, .error e) => (idx1, some (.error e))
      | (idx1, .ok fl) => if fl = 0 then (idx1, some (.ok ())) else (idx1, none)
    else (idx, none)
  match front with
  | (idx1, some r) => ⟨data.getD [], idx1, r⟩
  | (idx1, none) =>
    match data with
    | none => ⟨[], idx1, .error .einval⟩
    | some buf0 =>
      match nau8360_dsp_replied rd idx1 with
      | (idx2, .error e) => ⟨buf0, idx2, .error e⟩
      | (idx2, .ok fl) =>
        if fl = 0 then ⟨buf0, idx2, .ok ()⟩
        else
          let fpl := fl - 1
          let cnt0 : Int := if info.msg_param then (data_size : Int) else 0
          match replyPayloadLoop rd info.msg_param fpl ⟨0, cnt0, buf0, idx2⟩ with
          | (st, some e) => ⟨st.buf, st.idx, .error e⟩
          | (st, none) =>
            match rd st.idx with
            | .fail e => ⟨st.buf, st.idx + 1, .error (.ioErr e)⟩
            | .ok t =>
              if trailLenOf t ≠ fl then ⟨st.buf, st.idx + 1, .error .protocol⟩
              else
                let pad_exp : Int :=
                  if info.msg_param then (fpl : Int) * 4 - ((data_size : Int) - st.cnt)
                  else 0
                if (trailPadOf t : Int) ≠ pad_exp then
                  ⟨st.buf, st.idx + 1, .error .protocol⟩
                else ⟨st.buf, st.idx + 1, .ok ()⟩

/-- `struct nau8360_kcs_setup`.  The two buffer pointers are `Option`
lists (`none` is the C null pointer). -/
structure KcsSetup where
  set_len : Nat
  set_kcs_offset : Nat
  set_kcs_data : Option (List Nat)
  get_len : Nat
  get_data : Option (List Nat)
deriving Repr

/-- Outcome of `nau8360_send_dsp_command`: mailbox words written, final
reply buffer contents, next read index, and the function's result. -/
structure SendRun where
  writes : List Nat
  buf : List Nat
  nextIdx : Nat
  result : Except Err Unit
deriving Repr

/-- `nau8360_send_dsp_command`: validate (unsupported command `-EINVAL`;
missing required field `-EFAULT`; GET_KCS_SETUP transport caps
`-ERANGE`), precompute `frag_len`, then run the encoder and the decoder
in sequence.  Validation failures perform no read and no write. -/
def nau8360_send_dsp_command (rd : Oracle) (cmd_id : Nat) (ks : KcsSetup)
    (idx : Nat) : SendRun :=
  if nau8360_dsp_commands cmd_id = false then
    ⟨[], ks.get_data.getD [], idx, .error .einval⟩
  else
    let cmd_info := nau8360_dsp_cmd_table cmd_id
    if (cmd_info.msg_param ∧ ks.set_len = 0) ∨
        (cmd_info.setup_data ∧ ks.set_kcs_data = none) ∨
        (cmd_info.reply_data ∧ ks.get_data = none) then
      ⟨[], ks.get_data.getD [], idx, .error .efault⟩
    else if cmd_id = NAU8360_DSP_CMD_GET_KCS_SETUP ∧
        (ks.set_len > NAU8360_DSP_KCS_DAT_LEN_MAX ∨
          ks.set_kcs_offset > NAU8360_DSP_KCS_OFFSET_MAX) then
      ⟨[], ks.get_data.getD [], idx, .error .erange⟩
    else
      let frag_len := sendFragLen cmd_info ks.set_len
      let bs := (ks.set_kcs_data.getD []).take ks.set_len
      let m := nau8360_massage_to_dsp rd cmd_info frag_len ks.set_kcs_offset
        ks.set_len bs idx
      match m.result with
      | .error e => ⟨m.writes, ks.get_data.getD [], m.nextIdx, .error e⟩
      | .ok _ =>
        let r := nau8360_reply_from_dsp rd cmd_info ks.get_len ks.get_data m.nextIdx
        ⟨m.writes, r.buf, r.nextIdx, r.result⟩

/-- One `nau8360_send_dsp_command` call issued by the KCS uploader:
command id, `set_kcs_offset`, `set_len`, and the chunk bytes. -/
structure UpCall where
  cmd : Nat
  off : Nat
  len : Nat
  data : List Nat
deriving DecidableEq, Repr

/-- The chunk-write call the uploader issues for the current cursor. -/
def chunkCall (off rem : Nat) (buf : List Nat) : UpCall :=
  ⟨NAU8360_DSP_CMD_SET_KCS_SETUP, off, min rem NAU8360_DSP_KCS_TX_MAX,
    buf.take (min rem NAU8360_DSP_KCS_TX_MAX)⟩

/-- The per-chunk result-check call (`GET_KCS_RSLTS`, offset 0, 4 bytes). -/
def rsltCall : UpCall := ⟨NAU8360_DSP_CMD_GET_KCS_RSLTS, 0, NAU8360_DSP_DATA_BYTE, []⟩

/-- The upload loop of `nau8360_dsp_kcs_setup`, driven by a schedule of
`nau8360_send_dsp_command` outcomes (one consumed per call, in call
order).  While data remains: issue a chunk write of
`min(remaining, 96)` bytes; on failure retry while the upload-wide
`retries` counter (post-incremented against `NAU8360_DSP_RETRY_MAX`) was
below 3, else abort with the last error; on success advance the cursor
and issue a `GET_KCS_RSLTS` check whose failure aborts with no retry.
Returns the calls issued, and `none` when the schedule ran out. -/
def kcsLoop : List (Except Err Unit) → List Nat → Nat → Nat → Nat → List UpCall →
    List UpCall × Option (Except Err Unit)
  | sched, buf, off, rem, r, tr =>
    if rem = 0 then (tr, some (.ok ()))
    else
      match sched with
      | [] => (tr, none)
      | .error e :: rest =>
        if r < NAU8360_DSP_RETRY_MAX then
          kcsLoop rest buf off rem (r + 1) (tr ++ [chunkCall off rem buf])
        else (tr ++ [chunkCall off rem buf], some (.error e))
      | .ok _ :: rest =>
        match rest with
        | [] => (tr ++ [chunkCall off rem buf, rsltCall], none)
        | .error e2 :: _rest2 => (tr ++ [chunkCall off rem buf, rsltCall], some (.error e2))
        | .ok _ :: rest2 =>
          let len := min rem NAU8360_DSP_KCS_TX_MAX
          kcsLoop rest2 (buf.drop len) (off + len) (rem - len) r
            (tr ++ [chunkCall off rem buf, rsltCall])

/-- `nau8360_dsp_kcs_setup`: validate (`null` data, size over 1024 or
offset over 3072 fail `-EINVAL` before any command is sent), then run
the chunked upload loop. -/
def nau8360_dsp_kcs_setup (sched : List (Except Err Unit)) (offset size : Nat)
    (data : Option (List Nat)) : List UpCall × Option (Except Err Unit) :=
  if data = none ∨ size > NAU8360_DSP_KCS_DAT_LEN_MAX ∨
      offset > NAU8360_DSP_KCS_OFFSET_MAX then
    ([], some (.error .einval))
  else kcsLoop sched (data.getD []) offset size 0 []

theorem nau8360_dsp_idle_found (rd : Oracle) (idx : Nat)
    (hidle : rd idx = .ok NAU8360_DSP_COMM_IDLE_WORD) :
    nau8360_dsp_idle rd idx = (idx + 1, .ok ()) := by
  unfold nau8360_dsp_idle NAU8360_DSP_IDLE_RETRY
  rw [show (10 : Nat) = 9 + 1 from rfl, idleLoop, hidle]
  simp

theorem idleLoop_timeout (rd : Oracle) (fuel idx : Nat)
    (h : ∀ k, k < fuel → ∃ w, rd (idx + k) = .ok w ∧ w ≠ NAU8360_DSP_COMM_IDLE_WORD) :
    idleLoop rd fuel idx = (idx + fuel, .error .timeout) := by
  induction fuel generalizing idx with
  | zero => simp [idleLoop]
  | succ n ih =>
    obtain ⟨w, hw, hne⟩ := h 0 (by omega)
    rw [idleLoop]
    rw [show idx + 0 = idx from rfl] at hw
    rw [hw]
    simp only [hne, if_false]
    rw [ih (idx + 1) (fun k hk => by
      obtain ⟨w2, hw2, hne2⟩ := h (k + 1) (by omega)
      exact ⟨w2, by rw [show idx + 1 + k = idx + (k + 1) by omega]; exact hw2, hne2⟩)]
    congr 1
    omega

theorem idleLoop_le (rd : Oracle) (fuel : Nat) : ∀ idx, (idleLoop rd fuel idx).1 ≤ idx + fuel := by
  induction fuel with
  | zero => intro idx; simp [idleLoop]
  | succ n ih =>
    intro idx
    rw [idleLoop]
    cases hr : rd idx with
    | fail e => simp
    | ok w =>
      by_cases hw : w = NAU8360_DSP_COMM_IDLE_WORD
      · simp [hw]
      · simp only [hw, if_false]
        have := ih (idx + 1)
        omega

theorem idleLoop_found (rd : Oracle) (fuel : Nat) :
    ∀ idx j, j < fuel →
    (∀ k, k < j → ∃ w, rd (idx + k) = .ok w ∧ w ≠ NAU8360_DSP_COMM_IDLE_WORD) →
    rd (idx + j) = .ok NAU8360_DSP_COMM_IDLE_WORD →
    idleLoop rd fuel idx = (idx + j + 1, .ok ()) := by
  induction fuel with
  | zero => intro idx j hj; omega
  | succ n ih =>
    intro idx j hj hpre hhit
    rw [idleLoop]
    cases j with
    | zero =>
      rw [show idx + 0 = idx from rfl] at hhit
      rw [hhit]
      simp
    | succ m =>
      obtain ⟨w, hw, hne⟩ := hpre 0 (by omega)
      rw [show idx + 0 = idx from rfl] at hw
      rw [hw]
      simp only [hne, if_false]
      rw [ih (idx + 1) m (by omega)
        (fun k hk => by
          obtain ⟨w2, hw2, hne2⟩ := hpre (k + 1) (by omega)
          exact ⟨w2, by rw [show idx + 1 + k = idx + (k + 1) by omega]; exact hw2, hne2⟩)
        (by rw [show idx + 1 + m = idx + (m + 1) by omega]; exact hhit)]
      congr 2
      omega

/-- C3 counterexample: `send(GetCounter)` against an already-idle DSP
writes exactly one word, but the fragment count encoded in that preamble
word is 0, not 1 as the claim states (`nau8360_send_dsp_command` leaves
`frag_len` at 0 for commands without `msg_param`). -/
theorem c3_counterexample :
    (nau8360_send_dsp_command (fun _ => .ok NAU8360_DSP_COMM_IDLE_WORD)
        NAU8360_DSP_CMD_GET_COUNTER ⟨0, 0, none, 4, some [0, 0, 0, 0]⟩ 0).writes =
      [preambleWord NAU8360_DSP_CMD_GET_COUNTER 0] ∧
    preambleLenOf (preambleWord NAU8360_DSP_CMD_GET_COUNTER 0) = 0 ∧
    preambleLenOf (preambleWord NAU8360_DSP_CMD_GET_COUNTER 0) ≠ 1 := by
  exact ⟨rfl, by decide, by decide⟩

/-- C3 (amended): for every supported command without a parameter the
encoder sends the preamble word only, and the fragment count encoded in
that preamble word is 0 (not 1); in particular `send(GetCounter)` writes
exactly 1 word with fragment count field 0. -/
theorem c3_noparam_preamble_only (rd : Oracle) (cmd : Nat) (ks : KcsSetup) (idx : Nat)
    (hc : nau8360_dsp_commands cmd = true)
    (hmp : (nau8360_dsp_cmd_table cmd).msg_param = false)
    (hget : ¬((nau8360_dsp_cmd_table cmd).reply_data ∧ ks.get_data = none))
    (hidle : rd idx = .ok NAU8360_DSP_COMM_IDLE_WORD) :
    (nau8360_send_dsp_command rd cmd ks idx).writes = [preambleWord cmd 0] ∧
    (nau8360_send_dsp_command rd cmd ks idx).writes.length = 1 ∧
    sendFragLen (nau8360_dsp_cmd_table cmd) ks.set_len = 0 ∧
    preambleLenOf (preambleWord cmd 0) = 0 := by
  have hsd : (nau8360_dsp_cmd_table cmd).setup_data = false := by
    simp only [nau8360_dsp_commands, NAU8360_DSP_CMD_GET_COUNTER,
      NAU8360_DSP_CMD_GET_FRAME_STATUS, NAU8360_DSP_CMD_GET_REVISION,
      NAU8360_DSP_CMD_GET_KCS_RSLTS, NAU8360_DSP_CMD_GET_KCS_SETUP,
      NAU8360_DSP_CMD_SET_KCS_SETUP, NAU8360_DSP_CMD_CLK_STOP,
      NAU8360_DSP_CMD_CLK_RESTART, Bool.or_eq_true, beq_iff_eq] at hc
    rcases hc with ((((((h | h) | h) | h) | h) | h) | h) | h <;> subst h <;>
      first | rfl | (exfalso; exact absurd hmp (by decide))
  have hid : (nau8360_dsp_cmd_table cmd).cmd_id = cmd := by
    simp only [nau8360_dsp_commands, NAU8360_DSP_CMD_GET_COUNTER,
      NAU8360_DSP_CMD_GET_FRAME_STATUS, NAU8360_DSP_CMD_GET_REVISION,
      NAU8360_DSP_CMD_GET_KCS_RSLTS, NAU8360_DSP_CMD_GET_KCS_SETUP,
      NAU8360_DSP_CMD_SET_KCS_SETUP, NAU8360_DSP_CMD_CLK_STOP,
      NAU8360_DSP_CMD_CLK_RESTART, Bool.or_eq_true, beq_iff_eq] at hc
    rcases hc with ((((((h | h) | h) | h) | h) | h) | h) | h <;> subst h <;> rfl
  have hne6 : cmd ≠ NAU8360_DSP_CMD_GET_KCS_SETUP := by
    intro h
    subst h
    exact absurd hmp (by decide)
  have hfl : sendFragLen (nau8360_dsp_cmd_table cmd) ks.set_len = 0 := by
    simp [sendFragLen, hmp, hsd]
  have hmsg : nau8360_massage_to_dsp rd (nau8360_dsp_cmd_table cmd) 0 ks.set_kcs_offset
      ks.set_len ((ks.set_kcs_data.getD []).take ks.set_len) idx =
      ⟨[preambleWord cmd 0], idx + 1, .ok ()⟩ := by
    unfold nau8360_massage_to_dsp
    rw [nau8360_dsp_idle_found rd idx hidle]
    simp [hmp, hid]
  have hsend : nau8360_send_dsp_command rd cmd ks idx =
      ⟨[preambleWord cmd 0],
        (nau8360_reply_from_dsp rd (nau8360_dsp_cmd_table cmd) ks.get_len
          ks.get_data (idx + 1)).buf,
        (nau8360_reply_from_dsp rd (nau8360_dsp_cmd_table cmd) ks.get_len
          ks.get_data (idx + 1)).nextIdx,
        (nau8360_reply_from_dsp rd (nau8360_dsp_cmd_table cmd) ks.get_len
          ks.get_data (idx + 1)).result⟩ := by
    unfold nau8360_send_dsp_command
    rw [if_neg (by simp [hc]),
      if_neg (by
        push_neg
        refine ⟨fun h => absurd h (by simp [hmp]), fun h => absurd h (by simp [hsd]), ?_⟩
        intro h1 h2
        exact hget ⟨h1, h2⟩),
      if_neg (by
        intro h
        exact hne6 h.1)]
    simp only [hfl, hmsg]
  rw [hsend]
  exact ⟨rfl, rfl, hfl, by
    have := preambleLenOf_preambleWord cmd 0
    simpa using this⟩

theorem c3_noparam_preamble_only_witness :
    nau8360_dsp_commands NAU8360_DSP_CMD_GET_COUNTER = true ∧
    (nau8360_dsp_cmd_table NAU8360_DSP_CMD_GET_COUNTER).msg_param = false ∧
    ¬((nau8360_dsp_cmd_table NAU8360_DSP_CMD_GET_COUNTER).reply_data ∧
      (some [9, 9, 9, 9] : Option (List Nat)) = none) ∧
    ((nau8360_send_dsp_command (fun _ => .ok NAU8360_DSP_COMM_IDLE_WORD)
        NAU8360_DSP_CMD_GET_COUNTER ⟨0, 0, none, 4, some [9, 9, 9, 9]⟩ 0).writes =
      [preambleWord NAU8360_DSP_CMD_GET_COUNTER 0] ∧
    (nau8360_send_dsp_command (fun _ => .ok NAU8360_DSP_COMM_IDLE_WORD)
        NAU8360_DSP_CMD_GET_COUNTER ⟨0, 0, none, 4, some [9, 9, 9, 9]⟩ 0).writes.length = 1 ∧
    sendFragLen (nau8360_dsp_cmd_table NAU8360_DSP_CMD_GET_COUNTER) 0 = 0 ∧
    preambleLenOf (preambleWord NAU8360_DSP_CMD_GET_COUNTER 0) = 0) :=
  ⟨by decide, by decide, by decide,
    c3_noparam_preamble_only (fun _ => .ok NAU8360_DSP_COMM_IDLE_WORD)
      NAU8360_DSP_CMD_GET_COUNTER ⟨0, 0, none, 4, some [9, 9, 9, 9]⟩ 0
      (by decide) (by decide) (by decide) rfl⟩

/-- C9: the idle wait reads the mailbox at most 10 times; it succeeds as
soon as a read returns the idle word `0xF4F3F2F1`; when all 10 reads
return non-idle values it fails with the timeout code; and in that case
`nau8360_send_dsp_command` (with its validation passing) fails the same
way with no mailbox word written. -/
theorem c9_idle_timeout (rd : Oracle) (idx j : Nat) (cmd : Nat) (ks : KcsSetup) :
    (nau8360_dsp_idle rd idx).1 ≤ idx + 10 ∧
    (j < 10 →
      (∀ k, k < j → ∃ w, rd (idx + k) = .ok w ∧ w ≠ NAU8360_DSP_COMM_IDLE_WORD) →
      rd (idx + j) = .ok NAU8360_DSP_COMM_IDLE_WORD →
      nau8360_dsp_idle rd idx = (idx + j + 1, .ok ())) ∧
    ((∀ k, k < 10 → ∃ w, rd (idx + k) = .ok w ∧ w ≠ NAU8360_DSP_COMM_IDLE_WORD) →
      nau8360_dsp_idle rd idx = (idx + 10, .error .timeout) ∧
      (nau8360_dsp_commands cmd = true →
        ¬((nau8360_dsp_cmd_table cmd).msg_param ∧ ks.set_len = 0) →
        ¬((nau8360_dsp_cmd_table cmd).setup_data ∧ ks.set_kcs_data = none) →
        ¬((nau8360_dsp_cmd_table cmd).reply_data ∧ ks.get_data = none) →
        ¬(cmd = NAU8360_DSP_CMD_GET_KCS_SETUP ∧
          (ks.set_len > NAU8360_DSP_KCS_DAT_LEN_MAX ∨
            ks.set_kcs_offset > NAU8360_DSP_KCS_OFFSET_MAX)) →
        nau8360_send_dsp_command rd cmd ks idx =
          ⟨[], ks.get_data.getD [], idx + 10, .error .timeout⟩)) := by
  refine ⟨?_, ?_, ?_⟩
  · exact idleLoop_le rd NAU8360_DSP_IDLE_RETRY idx
  · intro hj hpre hhit
    exact idleLoop_found rd NAU8360_DSP_IDLE_RETRY idx j hj hpre hhit
  · intro hall
    have hidle : nau8360_dsp_idle rd idx = (idx + 10, .error .timeout) :=
      idleLoop_timeout rd NAU8360_DSP_IDLE_RETRY idx hall
    refine ⟨hidle, ?_⟩
    intro hc hv1 hv2 hv3 hv4
    have hmsg : ∀ frag_len off sz bs,
        nau8360_massage_to_dsp rd (nau8360_dsp_cmd_table cmd) frag_len off sz bs idx =
          ⟨[], idx + 10, .error .timeout⟩ := by
      intro frag_len off sz bs
      unfold nau8360_massage_to_dsp
      rw [hidle]
    unfold nau8360_send_dsp_command
    rw [if_neg (by simp [hc]), if_neg (by
      rintro (h | h | h)
      · exact hv1 h
      · exact hv2 h
      · exact hv3 h), if_neg hv4]
    simp only [hmsg]

theorem c9_idle_timeout_witness :
    (∀ k, k < 10 → ∃ w, (fun _ => ReadRes.ok 0) (0 + k) = ReadRes.ok w ∧
      w ≠ NAU8360_DSP_COMM_IDLE_WORD) ∧
    nau8360_dsp_idle (fun _ => .ok 0) 0 = (0 + 10, .error .timeout) ∧
    nau8360_send_dsp_command (fun _ => .ok 0) NAU8360_DSP_CMD_GET_COUNTER
      ⟨0, 0, none, 4, some [9, 9, 9, 9]⟩ 0 = ⟨[], [9, 9, 9, 9], 0 + 10, .error .timeout⟩ := by
  have h := (c9_idle_timeout (fun _ => .ok 0) 0 0 NAU8360_DSP_CMD_GET_COUNTER
    ⟨0, 0, none, 4, some [9, 9, 9, 9]⟩).2.2 (fun k _ => ⟨0, rfl, by decide⟩)
  exact ⟨fun k _ => ⟨0, rfl, by decide⟩, h.1,
    h.2 (by decide) (by decide) (by decide) (by decide) (by decide)⟩

/-- C6: a request whose setup size exceeds 1024 bytes or whose offset
exceeds 3072 fails with an Invalid-kind code before any register read or
write: `GET_KCS_SETUP` through `nau8360_send_dsp_command` fails `-ERANGE`
with no word written and the read index unchanged, and
`nau8360_dsp_kcs_setup` fails `-EINVAL` with no command issued; size
1024 with offset 3072 passes validation in both and I/O begins. -/
theorem c6_transport_caps (rd : Oracle) (ks : KcsSetup) (idx : Nat)
    (sched : List (Except Err Unit)) (off sz : Nat) (data : List Nat) :
    ((ks.set_len > 1024 ∨ ks.set_kcs_offset > 3072) → ks.set_len ≠ 0 →
      ks.get_data ≠ none →
      nau8360_send_dsp_command rd NAU8360_DSP_CMD_GET_KCS_SETUP ks idx =
        ⟨[], ks.get_data.getD [], idx, .error .erange⟩ ∧
      Err.erange.isInvalid = true) ∧
    ((sz > 1024 ∨ off > 3072) →
      nau8360_dsp_kcs_setup sched off sz (some data) = ([], some (.error .einval)) ∧
      Err.einval.isInvalid = true) ∧
    (nau8360_send_dsp_command (fun _ => .ok NAU8360_DSP_COMM_IDLE_WORD)
        NAU8360_DSP_CMD_GET_KCS_SETUP ⟨1024, 3072, none, 4, some [0, 0, 0, 0]⟩ 0).writes.length
      = 3 ∧
    (nau8360_dsp_kcs_setup (List.replicate 22 (.ok ())) 3072 1024
      (some (List.replicate 1024 0))).1.length = 22 ∧
    (nau8360_dsp_kcs_setup (List.replicate 22 (.ok ())) 3072 1024
      (some (List.replicate 1024 0))).2 = some (.ok ()) := by
  refine ⟨?_, ?_, by rfl, by rfl, by rfl⟩
  · intro hrange hlen hget
    refine ⟨?_, rfl⟩
    unfold nau8360_send_dsp_command
    rw [if_neg (by decide), if_neg (by
      rintro (h | h | h)
      · exact hlen h.2
      · exact absurd h.1 (by decide)
      · exact hget h.2),
      if_pos ⟨rfl, by simpa [NAU8360_DSP_KCS_DAT_LEN_MAX, NAU8360_DSP_KCS_OFFSET_MAX]
        using hrange⟩]
  · intro hrange
    refine ⟨?_, rfl⟩
    unfold nau8360_dsp_kcs_setup
    rw [if_pos (by
      right
      simpa [NAU8360_DSP_KCS_DAT_LEN_MAX, NAU8360_DSP_KCS_OFFSET_MAX] using hrange)]

theorem c6_transport_caps_witness :
    (((1025 : Nat) > 1024 ∨ (0 : Nat) > 3072) ∧ (1025 : Nat) ≠ 0 ∧
      (some [0, 0, 0, 0] : Option (List Nat)) ≠ none ∧
      ((4 : Nat) > 1024 ∨ (3073 : Nat) > 3072)) ∧
    (nau8360_send_dsp_command (fun _ => .ok 0) NAU8360_DSP_CMD_GET_KCS_SETUP
        ⟨1025, 0, none, 4, some [0, 0, 0, 0]⟩ 5 =
      ⟨[], [0, 0, 0, 0], 5, .error .erange⟩ ∧
      Err.erange.isInvalid = true) ∧
    (nau8360_dsp_kcs_setup [] 3073 4 (some [1, 2, 3, 4]) =
      ([], some (.error .einval)) ∧
      Err.einval.isInvalid = true) :=
  ⟨⟨by decide, by decide, by decide, by decide⟩,
    (c6_transport_caps (fun _ => .ok 0) ⟨1025, 0, none, 4, some [0, 0, 0, 0]⟩ 5
      [] 3073 4 [1, 2, 3, 4]).1 (by decide) (by decide) (by decide),
    (c6_transport_caps (fun _ => .ok 0) ⟨1025, 0, none, 4, some [0, 0, 0, 0]⟩ 5
      [] 3073 4 [1, 2, 3, 4]).2.1 (by decide)⟩

theorem repliedLoop_hit (rd : Oracle) (fuel idx : Nat) (w : Nat) (hfuel : fuel ≠ 0)
    (hw : rd idx = .ok w) (hp : isPreamble w = true) :
    repliedLoop rd fuel idx = (idx + 1, .ok (preambleIdOf w, preambleLenOf w)) := by
  obtain ⟨n, rfl⟩ := Nat.exists_eq_succ_of_ne_zero hfuel
  rw [repliedLoop, hw]
  simp [hp]

theorem nau8360_dsp_replied_hit (rd : Oracle) (idx rid len : Nat)
    (hrid : rid < 64) (hlen : len < 1024)
    (hw : rd idx = .ok (preambleWord rid len)) :
    nau8360_dsp_replied rd idx =
      (idx + 1, if rid = 0 then .ok len else .error (.reply rid)) := by
  unfold nau8360_dsp_replied NAU8360_DSP_IDLE_RETRY
  rw [repliedLoop_hit rd 10 idx _ (by decide) hw (isPreamble_preambleWord rid len)]
  rw [preambleIdOf_preambleWord, preambleLenOf_preambleWord,
    Nat.mod_eq_of_lt hrid, Nat.mod_eq_of_lt hlen]
  by_cases h : rid = 0 <;> simp [h]

/-- C7 counterexample: reply id 5 surfaces as `-5`, which is exactly the
code of the `Timeout` failure (`-EIO`); and a register read that fails
with `-3` surfaces with the same code as reply id 3.  The reply ids are
therefore not surfaced distinctly from `IOError` and `Timeout`. -/
theorem c7_counterexample :
    nau8360_dsp_replied (fun _ => .ok (preambleWord 5 1)) 0 = (1, .error (.reply 5)) ∧
    errno (.reply 5) = errno .timeout ∧
    nau8360_dsp_replied (fun _ => .fail (-3)) 0 = (1, .error (.ioErr (-3))) ∧
    errno (.ioErr (-3)) = errno (.reply 3) := by
  refine ⟨?_, by decide, ?_, by decide⟩
  · rw [nau8360_dsp_replied_hit (fun _ => .ok (preambleWord 5 1)) 0 5 1
      (by decide) (by decide) rfl]
    rfl
  · rfl

/-- C7 (amended): a decoded reply whose preamble carries a non-zero
reply id `r` (protocol values 1..5) makes the exchange fail immediately
with `-r`, reading no payload or trailer word after the preamble; the
five codes are pairwise distinct and distinct from the Protocol and
Invalid codes, and reply id 3 always surfaces as `-3` (UnknownCommand);
but reply id 5's code equals the Timeout code, and an IOError carries
the register layer's own code, so those are not distinct in general. -/
theorem c7_reply_status (rd : Oracle) (info : CmdInfo) (idx rid len data_size : Nat)
    (buf : List Nat) (hrd : info.reply_data = true) (hrid : rid ≠ 0) (hr5 : rid ≤ 5)
    (hlen : len < 1024) (hw : rd idx = .ok (preambleWord rid len)) :
    nau8360_reply_from_dsp rd info data_size (some buf) idx =
      ⟨buf, idx + 1, .error (.reply rid)⟩ ∧
    errno (.reply rid) = -(rid : Int) ∧
    (∀ a b : Nat, a ≤ 5 → b ≤ 5 → a ≠ b → errno (.reply a) ≠ errno (.reply b)) ∧
    errno (.reply rid) ≠ errno .protocol ∧
    errno (.reply rid) ≠ errno .einval ∧
    errno (.reply rid) ≠ errno .efault ∧
    errno (.reply rid) ≠ errno .erange ∧
    (rid ≠ 5 → errno (.reply rid) ≠ errno .timeout) ∧
    (rid = 3 → (nau8360_reply_from_dsp rd info data_size (some buf) idx).result =
      .error (.reply 3)) := by
  have hrep := nau8360_dsp_replied_hit rd idx rid len (by omega) hlen hw
  rw [if_neg hrid] at hrep
  have hrun : nau8360_reply_from_dsp rd info data_size (some buf) idx =
      ⟨buf, idx + 1, .error (.reply rid)⟩ := by
    unfold nau8360_reply_from_dsp
    simp [hrd, hrep]
  refine ⟨hrun, rfl, ?_, ?_, ?_, ?_, ?_, ?_, ?_⟩
  · intro a b ha hb hne
    simp only [errno]
    omega
  · simp only [errno]; omega
  · simp only [errno]; omega
  · simp only [errno]; omega
  · simp only [errno]; omega
  · intro h5; simp only [errno]; omega
  · intro h3
    subst h3
    rw [hrun]

theorem c7_reply_status_witness :
    ((nau8360_dsp_cmd_table NAU8360_DSP_CMD_GET_COUNTER).reply_data = true ∧
      (3 : Nat) ≠ 0 ∧ (3 : Nat) ≤ 5 ∧ (2 : Nat) < 1024) ∧
    nau8360_reply_from_dsp (fun _ => .ok (preambleWord 3 2))
        (nau8360_dsp_cmd_table NAU8360_DSP_CMD_GET_COUNTER) 4 (some [7, 7, 7, 7]) 0 =
      ⟨[7, 7, 7, 7], 0 + 1, .error (.reply 3)⟩ :=
  ⟨⟨by decide, by decide, by decide, by decide⟩,
    (c7_reply_status (fun _ => .ok (preambleWord 3 2))
      (nau8360_dsp_cmd_table NAU8360_DSP_CMD_GET_COUNTER) 0 3 2 4 [7, 7, 7, 7]
      (by decide) (by decide) (by decide) (by decide) rfl).1⟩

theorem setBytesAt_zero_word (buf : List Nat) (w : Nat) :
    setBytesAt buf 0 (wordBytes w) = wordBytes w ++ buf.drop 4 := by
  simp [setBytesAt, wordBytes]

theorem wordBytes_append_drop (w : Nat) (l : List Nat) :
    (wordBytes w ++ l).drop 4 = l := by
  simp [wordBytes]

theorem replyPayloadLoop_fixed (rd : Oracle) (ws : List Nat) :
    ∀ (c : Int) (buf : List Nat) (idx : Nat),
    (∀ k, (hk : k < ws.length) → rd (idx + k) = .ok (ws.get ⟨k, hk⟩)) →
    (hne : ws ≠ []) →
    replyPayloadLoop rd false ws.length ⟨0, c, buf, idx⟩ =
      (⟨0, c, wordBytes (ws.getLast hne) ++ buf.drop 4, idx + ws.length⟩, none) := by
  induction ws with
  | nil => intro c buf idx h hne; exact absurd rfl hne
  | cons w ws ih =>
    intro c buf idx h hne
    have h0 : rd idx = .ok w := by
      have := h 0 (by simp)
      simpa using this
    simp only [List.length_cons]
    rw [replyPayloadLoop, h0]
    simp only [Bool.false_eq_true, if_false, setBytesAt_zero_word]
    cases ws with
    | nil => rfl
    | cons w2 ws2 =>
      have hrec := ih c (wordBytes w ++ buf.drop 4) (idx + 1)
        (fun k hk => by
          have := h (k + 1) (by simpa using Nat.succ_lt_succ hk)
          rw [show idx + 1 + k = idx + (k + 1) by omega]
          simpa using this)
        (by simp)
      rw [hrec]
      rw [wordBytes_append_drop]
      have hlast : (w2 :: ws2).getLast (by simp) = (w :: w2 :: ws2).getLast hne :=
        (List.getLast_cons (by simp)).symm
      rw [hlast]
      have hidx : idx + 1 + (w2 :: ws2).length = idx + (w2 :: ws2).length + 1 := by omega
      rw [hidx]
      rfl

/-- C10: for a reply to a command without a parameter (the fixed-width
path) that declares `n` payload fragments, the decoder stores every
payload word into the same first 32-bit slot of the caller buffer and
never advances the cursor: whatever the trailer read yields, the final
buffer is the bytes of the last payload word followed by the untouched
tail, so every byte at index 4 or above is unchanged and only the last
payload word is retained. -/
theorem c10_fixed_reply_same_slot (rd : Oracle) (info : CmdInfo)
    (idx n data_size : Nat) (buf ws : List Nat)
    (hmp : info.msg_param = false) (hrd : info.reply_data = true)
    (hlen : ws.length = n) (hne : ws ≠ [])
    (hn2 : n + 1 < 1024)
    (hw0 : rd idx = .ok (preambleWord 0 (n + 1)))
    (hws : ∀ k, (hk : k < ws.length) → rd (idx + 1 + k) = .ok (ws.get ⟨k, hk⟩)) :
    (nau8360_reply_from_dsp rd info data_size (some buf) idx).buf =
      wordBytes (ws.getLast hne) ++ buf.drop 4 ∧
    (∀ j, 4 ≤ j →
      (nau8360_reply_from_dsp rd info data_size (some buf) idx).buf.getD j 0 =
        buf.getD j 0) := by
  have hrep := nau8360_dsp_replied_hit rd idx 0 (n + 1) (by decide) hn2 hw0
  rw [if_pos rfl] at hrep
  have hloop := replyPayloadLoop_fixed rd ws 0 buf (idx + 1) (fun k hk => hws k hk) hne
  rw [hlen] at hloop
  have hbuf : (nau8360_reply_from_dsp rd info data_size (some buf) idx).buf =
      wordBytes (ws.getLast hne) ++ buf.drop 4 := by
    unfold nau8360_reply_from_dsp
    simp only [hrd, hmp, hrep, Bool.false_eq_true, Bool.true_eq_false, if_false,
      Nat.add_sub_cancel, Nat.succ_ne_zero, ite_false, ite_true]
    rw [hloop]
    cases htr : rd (idx + 1 + n) with
    | fail e => simp only [htr]
    | ok t =>
      simp only [htr]
      by_cases h1 : trailLenOf t ≠ n + 1 <;> by_cases h2 : (trailPadOf t : Int) ≠ 0 <;>
        simp [h1, h2]
  refine ⟨hbuf, fun j hj => ?_⟩
  rw [hbuf]
  rw [List.getD_eq_getElem?_getD, List.getD_eq_getElem?_getD,
    List.getElem?_append_right (by simp [wordBytes]; omega)]
  rw [show (wordBytes (ws.getLast hne)).length = 4 by simp [wordBytes]]
  rw [List.getElem?_drop]
  rw [show 4 + (j - 4) = j by omega]

theorem c10_fixed_reply_same_slot_witness :
    ((nau8360_dsp_cmd_table NAU8360_DSP_CMD_GET_COUNTER).msg_param = false ∧
      (nau8360_dsp_cmd_table NAU8360_DSP_CMD_GET_COUNTER).reply_data = true ∧
      ([0x11223344, 0x55667788] : List Nat) ≠ [] ∧ (2 : Nat) + 1 < 1024) ∧
    (nau8360_reply_from_dsp
        (fun i => .ok ([preambleWord 0 3, 0x11223344, 0x55667788,
          trailerWord 3 0].getD i 0))
        (nau8360_dsp_cmd_table NAU8360_DSP_CMD_GET_COUNTER) 4
        (some [1, 2, 3, 4, 5, 6, 7, 8]) 0).buf =
      wordBytes 0x55667788 ++ [1, 2, 3, 4, 5, 6, 7, 8].drop 4 :=
  ⟨⟨by decide, by decide, by decide, by decide⟩,
    (c10_fixed_reply_same_slot
      (fun i => .ok ([preambleWord 0 3, 0x11223344, 0x55667788, trailerWord 3 0].getD i 0))
      (nau8360_dsp_cmd_table NAU8360_DSP_CMD_GET_COUNTER) 0 2 4
      [1, 2, 3, 4, 5, 6, 7, 8] [0x11223344, 0x55667788]
      (by decide) (by decide) (by decide) (by decide) (by decide) rfl
      (by
        intro k hk
        simp only [List.length_cons, List.length_nil] at hk
        interval_cases k <;> rfl)).1⟩

theorem replyPayloadLoop_ok_step (rd : Oracle) (mp : Bool) (fuel : Nat) (st : ReplySt)
    (w : Nat) (hw : rd st.idx = .ok w) :
    replyPayloadLoop rd mp (fuel + 1) st =
      if mp then
        if st.cnt ≥ 4 then
          replyPayloadLoop rd mp fuel
            ⟨st.pos + 4, st.cnt - 4, setBytesAt st.buf st.pos (wordBytes w), st.idx + 1⟩
        else
          (⟨st.pos, st.cnt - (if st.cnt ≥ 1 then st.cnt.toNat else 1),
            setBytesAt st.buf st.pos
              ((wordBytes w).take (if st.cnt ≥ 1 then st.cnt.toNat else 1)),
            st.idx + 1⟩, none)
      else
        replyPayloadLoop rd mp fuel
          ⟨st.pos, st.cnt, setBytesAt st.buf 0 (wordBytes w), st.idx + 1⟩ := by
  rw [replyPayloadLoop, hw]

theorem replyPayloadLoop_opaque (rd : Oracle) (cnt : Nat) :
    ∀ (buf : List Nat) (pos0 idx : Nat),
    (∀ k, k < (cnt + 3) / 4 → ∃ w, rd (idx + k) = .ok w) →
    ∃ st', replyPayloadLoop rd true ((cnt + 3) / 4) ⟨pos0, (cnt : Int), buf, idx⟩ =
      (st', none) ∧ st'.cnt = 0 ∧ st'.idx = idx + (cnt + 3) / 4 := by
  induction cnt using Nat.strong_induction_on with
  | _ cnt ih =>
    intro buf pos0 idx h
    rcases Nat.lt_or_ge cnt 1 with h0 | h1
    · have hc : cnt = 0 := by omega
      subst hc
      exact ⟨⟨pos0, 0, buf, idx⟩, rfl, rfl, rfl⟩
    · rcases Nat.lt_or_ge cnt 4 with h4 | h4
      · have hf : (cnt + 3) / 4 = 0 + 1 := by omega
        rw [hf]
        obtain ⟨w, hw⟩ := h 0 (by omega)
        rw [show idx + 0 = idx from rfl] at hw
        rw [replyPayloadLoop_ok_step rd true 0 ⟨pos0, (cnt : Int), buf, idx⟩ w hw]
        rw [if_pos rfl, if_neg (by simp; omega), if_pos (by simp; omega)]
        refine ⟨_, rfl, ?_, ?_⟩
        · simp
        · simp
      · have hf : (cnt + 3) / 4 = (cnt - 4 + 3) / 4 + 1 := by omega
        rw [hf]
        obtain ⟨w, hw⟩ := h 0 (by omega)
        rw [show idx + 0 = idx from rfl] at hw
        rw [replyPayloadLoop_ok_step rd true ((cnt - 4 + 3) / 4)
          ⟨pos0, (cnt : Int), buf, idx⟩ w hw]
        rw [if_pos rfl, if_pos (by simp; omega)]
        have hcast : ((cnt : Int) - 4) = ((cnt - 4 : Nat) : Int) := by omega
        simp only [hcast]
        obtain ⟨st', heq, hcnt, hidx⟩ := ih (cnt - 4) (by omega)
          (setBytesAt buf pos0 (wordBytes w)) (pos0 + 4) (idx + 1)
          (fun k hk => by
            obtain ⟨w2, hw2⟩ := h (k + 1) (by omega)
            exact ⟨w2, by rw [show idx + 1 + k = idx + (k + 1) by omega]; exact hw2⟩)
        exact ⟨st', heq, hcnt, by omega⟩

theorem replyPayloadLoop_fixed_idx (rd : Oracle) (n : Nat) :
    ∀ (c : Int) (buf : List Nat) (pos0 idx : Nat),
    (∀ k, k < n → ∃ w, rd (idx + k) = .ok w) →
    ∃ st', replyPayloadLoop rd false n ⟨pos0, c, buf, idx⟩ = (st', none) ∧
      st'.cnt = c ∧ st'.idx = idx + n := by
  induction n with
  | zero =>
    intro c buf pos0 idx _
    exact ⟨⟨pos0, c, buf, idx⟩, rfl, rfl, rfl⟩
  | succ m ih =>
    intro c buf pos0 idx h
    obtain ⟨w, hw⟩ := h 0 (by omega)
    rw [show idx + 0 = idx from rfl] at hw
    rw [replyPayloadLoop_ok_step rd false m ⟨pos0, c, buf, idx⟩ w hw]
    simp only [Bool.false_eq_true, if_false]
    obtain ⟨st', heq, hcnt, hidx⟩ := ih c (setBytesAt buf 0 (wordBytes w)) pos0 (idx + 1)
      (fun k hk => by
        obtain ⟨w2, hw2⟩ := h (k + 1) (by omega)
        exact ⟨w2, by rw [show idx + 1 + k = idx + (k + 1) by omega]; exact hw2⟩)
    exact ⟨st', heq, hcnt, by omega⟩

/-- C8: after the payload words of a conforming reply, the decoder reads
the trailer word, reconstructs the restated fragment count
(`trailLenOf`) and padding (`trailPadOf`), and the exchange succeeds
exactly when the fragment count matches the preamble's and the padding
matches `4*ceil(requested/4) - requested` (opaque transfers, commands
with a parameter) or 0 (fixed-width transfers); any mismatch fails with
`Protocol`, an error distinct from every `ReplyStatus` and from
`Timeout`, with a distinct code (`-EPROTO`). -/
theorem c8_trailer_protocol (rd : Oracle) (info : CmdInfo) (idx data_size fl t : Nat)
    (buf : List Nat) (hrd : info.reply_data = true) (hfl : fl < 1024) :
    (info.msg_param = true →
      fl = 1 + (data_size + 3) / 4 →
      rd idx = .ok (preambleWord 0 fl) →
      (∀ k, k < (data_size + 3) / 4 → ∃ w, rd (idx + 1 + k) = .ok w) →
      rd (idx + 1 + (data_size + 3) / 4) = .ok t →
      (nau8360_reply_from_dsp rd info data_size (some buf) idx).result =
        (if trailLenOf t = fl ∧
            (trailPadOf t : Int) = 4 * (((data_size + 3) / 4 : Nat) : Int) - (data_size : Int)
          then .ok () else .error .protocol)) ∧
    (info.msg_param = false →
      ∀ n : Nat, fl = n + 1 →
      rd idx = .ok (preambleWord 0 fl) →
      (∀ k, k < n → ∃ w, rd (idx + 1 + k) = .ok w) →
      rd (idx + 1 + n) = .ok t →
      (nau8360_reply_from_dsp rd info data_size (some buf) idx).result =
        (if trailLenOf t = fl ∧ trailPadOf t = 0 then .ok () else .error .protocol)) ∧
    (∀ r : Nat, Err.protocol ≠ Err.reply r) ∧
    Err.protocol ≠ Err.timeout ∧
    (∀ r : Nat, r < 64 → errno .protocol ≠ errno (.reply r)) ∧
    errno .protocol ≠ errno .timeout := by
  refine ⟨?_, ?_, ?_, by decide, ?_, by decide⟩
  case refine_3 => intro r h; cases h
  case refine_4 => intro r hr; simp only [errno]; omega
  · intro hmp hfleq hw0 hreads htr
    have hrep := nau8360_dsp_replied_hit rd idx 0 fl (by decide) hfl hw0
    rw [if_pos rfl] at hrep
    obtain ⟨st', hloop, hcnt, hidx⟩ := replyPayloadLoop_opaque rd data_size buf 0 (idx + 1)
      (fun k hk => hreads k hk)
    unfold nau8360_reply_from_dsp
    have hflne : ¬(fl = 0) := by omega
    have hsub : fl - 1 = (data_size + 3) / 4 := by omega
    simp only [hrd, hmp, hrep, hflne, hsub, Bool.true_eq_false, Bool.false_eq_true,
      if_false, ite_true, ite_false, if_true]
    rw [hloop]
    simp only []
    rw [hidx, hcnt, htr]
    simp only []
    by_cases h1 : trailLenOf t = fl
    · by_cases h2 : (trailPadOf t : Int) =
        4 * (((data_size + 3) / 4 : Nat) : Int) - (data_size : Int)
      · rw [if_neg (not_not_intro h1),
          if_neg (not_not_intro (show (trailPadOf t : Int) =
            (((data_size + 3) / 4 : Nat) : Int) * 4 - ((data_size : Int) - 0) by
              rw [h2]; push_cast; ring)),
          if_pos ⟨h1, h2⟩]
      · rw [if_neg (not_not_intro h1),
          if_pos (show (trailPadOf t : Int) ≠
            (((data_size + 3) / 4 : Nat) : Int) * 4 - ((data_size : Int) - 0) from
              fun hc => h2 (by rw [hc]; push_cast; ring)),
          if_neg (show ¬(trailLenOf t = fl ∧ (trailPadOf t : Int) =
            4 * (((data_size + 3) / 4 : Nat) : Int) - (data_size : Int)) from
              fun hc => h2 hc.2)]
    · rw [if_pos (show trailLenOf t ≠ fl from h1),
        if_neg (show ¬(trailLenOf t = fl ∧ (trailPadOf t : Int) =
          4 * (((data_size + 3) / 4 : Nat) : Int) - (data_size : Int)) from
            fun hc => h1 hc.1)]
  · intro hmp n hfleq hw0 hreads htr
    have hrep := nau8360_dsp_replied_hit rd idx 0 fl (by decide) hfl hw0
    rw [if_pos rfl] at hrep
    obtain ⟨st', hloop, hcnt, hidx⟩ := replyPayloadLoop_fixed_idx rd n 0 buf 0 (idx + 1)
      (fun k hk => hreads k hk)
    unfold nau8360_reply_from_dsp
    have hflne : ¬(fl = 0) := by omega
    have hsub : fl - 1 = n := by omega
    simp only [hrd, hmp, hrep, hflne, hsub, Bool.false_eq_true, Bool.true_eq_false,
      if_false, ite_true, ite_false, if_true]
    rw [hloop]
    simp only []
    rw [hidx, htr]
    simp only []
    by_cases h1 : trailLenOf t = fl
    · by_cases h2 : trailPadOf t = 0
      · rw [if_neg (not_not_intro h1),
          if_neg (not_not_intro (show ((trailPadOf t : Nat) : Int) = 0 by
            exact_mod_cast h2)),
          if_pos ⟨h1, h2⟩]
      · rw [if_neg (not_not_intro h1),
          if_pos (show ((trailPadOf t : Nat) : Int) ≠ 0 from
            fun hc => h2 (by exact_mod_cast hc)),
          if_neg (show ¬(trailLenOf t = fl ∧ trailPadOf t = 0) from fun hc => h2 hc.2)]
    · rw [if_pos (show trailLenOf t ≠ fl from h1),
        if_neg (show ¬(trailLenOf t = fl ∧ trailPadOf t = 0) from fun hc => h1 hc.1)]

theorem c8_trailer_protocol_witness :
    ((nau8360_dsp_cmd_table NAU8360_DSP_CMD_GET_KCS_SETUP).reply_data = true ∧
      (nau8360_dsp_cmd_table NAU8360_DSP_CMD_GET_KCS_SETUP).msg_param = true ∧
      (2 : Nat) < 1024 ∧ (2 : Nat) = 1 + (4 + 3) / 4 ∧
      trailPadOf (trailerWord 2 1) ≠ 0) ∧
    (nau8360_reply_from_dsp
        (fun i => .ok ([preambleWord 0 2, 0x12345678, trailerWord 2 1].getD i 0))
        (nau8360_dsp_cmd_table NAU8360_DSP_CMD_GET_KCS_SETUP) 4
        (some [0, 0, 0, 0]) 0).result = .error .protocol := by
  refine ⟨⟨by decide, by decide, by decide, by decide, by decide⟩, ?_⟩
  have h := (c8_trailer_protocol
    (fun i => .ok ([preambleWord 0 2, 0x12345678, trailerWord 2 1].getD i 0))
    (nau8360_dsp_cmd_table NAU8360_DSP_CMD_GET_KCS_SETUP) 0 4 2 (trailerWord 2 1)
    [0, 0, 0, 0] (by decide) (by decide)).1 (by decide) (by decide) rfl
    (by
      intro k hk
      have hk0 : k = 0 := by omega
      subst hk0
      exact ⟨0x12345678, rfl⟩) rfl
  rw [h]
  rfl

/-- The call trace of a fully successful upload of `rem` remaining bytes
of `buf` at cursor `off`: a chunk write of `min(rem, 96)` bytes followed
by a result check, repeated until nothing remains. -/
def expTrace (buf : List Nat) (off rem : Nat) : List UpCall :=
  if rem = 0 then []
  else
    chunkCall off rem buf :: rsltCall ::
      expTrace (buf.drop (min rem NAU8360_DSP_KCS_TX_MAX))
        (off + min rem NAU8360_DSP_KCS_TX_MAX) (rem - min rem NAU8360_DSP_KCS_TX_MAX)
termination_by rem
decreasing_by
  simp only [NAU8360_DSP_KCS_TX_MAX]
  omega

theorem kcsLoop_allOk (rem : Nat) : ∀ (buf : List Nat) (off r : Nat) (tr : List UpCall),
    kcsLoop (List.replicate (2 * ((rem + 95) / 96)) (.ok ())) buf off rem r tr =
      (tr ++ expTrace buf off rem, some (.ok ())) := by
  induction rem using Nat.strong_induction_on with
  | _ rem ih =>
    intro buf off r tr
    by_cases h0 : rem = 0
    · subst h0
      rw [kcsLoop.eq_def]
      simp [expTrace]
    · have hch : 1 ≤ (rem + 95) / 96 := by omega
      have hrep2 : List.replicate (2 * ((rem + 95) / 96)) (Except.ok () : Except Err Unit) =
          .ok () :: .ok () :: List.replicate (2 * ((rem + 95) / 96) - 2) (.ok ()) := by
        rw [show 2 * ((rem + 95) / 96) = (2 * ((rem + 95) / 96) - 2) + 1 + 1 by omega]
        simp [List.replicate_succ]
      have hnext : 2 * ((rem + 95) / 96) - 2 =
          2 * (((rem - min rem NAU8360_DSP_KCS_TX_MAX) + 95) / 96) := by
        simp only [NAU8360_DSP_KCS_TX_MAX]
        omega
      rw [hrep2, kcsLoop, if_neg h0]
      simp only []
      rw [hnext, ih (rem - min rem NAU8360_DSP_KCS_TX_MAX) (by
          simp only [NAU8360_DSP_KCS_TX_MAX]
          omega)]
      conv_rhs => rw [expTrace]
      rw [if_neg h0]
      simp

theorem expTrace_filter_set (rem : Nat) : ∀ (buf : List Nat) (off : Nat),
    ((expTrace buf off rem).filter
      (fun c => c.cmd == NAU8360_DSP_CMD_SET_KCS_SETUP)).length = (rem + 95) / 96 := by
  induction rem using Nat.strong_induction_on with
  | _ rem ih =>
    intro buf off
    by_cases h0 : rem = 0
    · subst h0
      rw [expTrace]
      simp
    · rw [expTrace, if_neg h0]
      have hlt : rem - min rem NAU8360_DSP_KCS_TX_MAX < rem := by
        simp only [NAU8360_DSP_KCS_TX_MAX]
        omega
      simp only [List.filter_cons, chunkCall, rsltCall, beq_self_eq_true, if_true,
        show (NAU8360_DSP_CMD_GET_KCS_RSLTS == NAU8360_DSP_CMD_SET_KCS_SETUP) = false
          from by decide, Bool.false_eq_true, if_false, ite_false, List.map_cons,
        List.flatten_cons, List.length_cons]
      rw [ih _ hlt]
      simp only [NAU8360_DSP_KCS_TX_MAX]
      omega

theorem expTrace_calls (rem : Nat) : ∀ (buf : List Nat) (off : Nat),
    rem ≤ buf.length →
    ∀ c ∈ expTrace buf off rem,
      (c.cmd = NAU8360_DSP_CMD_SET_KCS_SETUP ∨ c.cmd = NAU8360_DSP_CMD_GET_KCS_RSLTS) ∧
      (c.cmd = NAU8360_DSP_CMD_SET_KCS_SETUP →
        c.len ≤ NAU8360_DSP_KCS_TX_MAX ∧ c.data.length = c.len) := by
  induction rem using Nat.strong_induction_on with
  | _ rem ih =>
    intro buf off hle c hc
    by_cases h0 : rem = 0
    · subst h0
      rw [expTrace] at hc
      simp at hc
    · rw [expTrace, if_neg h0] at hc
      simp only [List.mem_cons] at hc
      rcases hc with hc | hc | hc
      · subst hc
        refine ⟨Or.inl rfl, fun _ => ⟨?_, ?_⟩⟩
        · simp [chunkCall]
        · simp only [chunkCall, List.length_take]
          simp only [NAU8360_DSP_KCS_TX_MAX] at *
          omega
      · subst hc
        exact ⟨Or.inr rfl, fun h => absurd h (by decide)⟩
      · exact ih _ (by simp only [NAU8360_DSP_KCS_TX_MAX]; omega) _ _
          (by simp only [NAU8360_DSP_KCS_TX_MAX, List.length_drop] at *; omega) c hc

theorem expTrace_concat (rem : Nat) : ∀ (buf : List Nat) (off : Nat),
    rem ≤ buf.length →
    (((expTrace buf off rem).filter
      (fun c => c.cmd == NAU8360_DSP_CMD_SET_KCS_SETUP)).map
        (fun c => c.data)).flatten = buf.take rem := by
  induction rem using Nat.strong_induction_on with
  | _ rem ih =>
    intro buf off hle
    by_cases h0 : rem = 0
    · subst h0
      rw [expTrace]
      simp
    · rw [expTrace, if_neg h0]
      simp only [List.filter_cons, chunkCall, rsltCall, beq_self_eq_true, if_true,
        show (NAU8360_DSP_CMD_GET_KCS_RSLTS == NAU8360_DSP_CMD_SET_KCS_SETUP) = false
          from by decide, Bool.false_eq_true, if_false, ite_false, List.map_cons,
        List.flatten_cons, List.length_cons]
      rw [ih _ (by simp only [NAU8360_DSP_KCS_TX_MAX]; omega) _ _
        (by simp only [NAU8360_DSP_KCS_TX_MAX, List.length_drop]; omega)]
      have hmin : min rem NAU8360_DSP_KCS_TX_MAX + (rem - min rem NAU8360_DSP_KCS_TX_MAX)
          = rem := by
        simp only [NAU8360_DSP_KCS_TX_MAX]
        omega
      have h1 : buf.take (min rem NAU8360_DSP_KCS_TX_MAX) =
          (buf.take rem).take (min rem NAU8360_DSP_KCS_TX_MAX) := by
        rw [List.take_take]
        congr 1
        simp only [NAU8360_DSP_KCS_TX_MAX]
        omega
      rw [List.take_drop, hmin, h1]
      exact List.take_append_drop _ _

theorem expTrace_alternation (rem : Nat) : ∀ (buf : List Nat) (off i : Nat),
    i < (expTrace buf off rem).length →
    ((expTrace buf off rem).getD i rsltCall).cmd = NAU8360_DSP_CMD_SET_KCS_SETUP →
    i + 1 < (expTrace buf off rem).length ∧
    ((expTrace buf off rem).getD (i + 1) rsltCall).cmd = NAU8360_DSP_CMD_GET_KCS_RSLTS := by
  induction rem using Nat.strong_induction_on with
  | _ rem ih =>
    intro buf off i hi hcmd
    by_cases h0 : rem = 0
    · subst h0
      rw [expTrace] at hi
      simp at hi
    · rw [expTrace, if_neg h0] at hi hcmd ⊢
      match i with
      | 0 =>
        refine ⟨by simp only [List.length_cons]; omega, ?_⟩
        rfl
      | 1 =>
        exfalso
        rw [List.getD_cons_succ, List.getD_cons_zero] at hcmd
        exact absurd hcmd (by decide)
      | Nat.succ (Nat.succ j) =>
        rw [List.getD_cons_succ, List.getD_cons_succ] at hcmd
        simp only [List.length_cons] at hi
        have hrec := ih (rem - min rem NAU8360_DSP_KCS_TX_MAX)
          (by simp only [NAU8360_DSP_KCS_TX_MAX]; omega)
          (buf.drop (min rem NAU8360_DSP_KCS_TX_MAX))
          (off + min rem NAU8360_DSP_KCS_TX_MAX) j (by omega) hcmd
        refine ⟨by simp only [List.length_cons]; omega, ?_⟩
        rw [List.getD_cons_succ, List.getD_cons_succ]
        exact hrec.2

/-- The uploader run C4 examines: `nau8360_dsp_kcs_setup` against a
schedule in which every issued command succeeds. -/
def c4run (offset size : Nat) (data : List Nat) :
    List UpCall × Option (Except Err Unit) :=
  nau8360_dsp_kcs_setup (List.replicate (2 * ((size + 95) / 96)) (.ok ()))
    offset size (some data)

/-- C4: uploading a length-`L` buffer (`0 < L ≤ 1024`, offset within the
cap) with every command succeeding issues exactly `ceil(L/96)` chunk
writes, each of at most 96 bytes, each immediately followed by a
`GET_KCS_RSLTS` check; the concatenation of the chunk payloads in issue
order equals the original buffer, and the upload completes successfully. -/
theorem c4_chunk_split (offset size : Nat) (data : List Nat)
    (hsz : 0 < size) (hsz2 : size ≤ NAU8360_DSP_KCS_DAT_LEN_MAX)
    (hoff : offset ≤ NAU8360_DSP_KCS_OFFSET_MAX) (hlen : data.length = size) :
    (c4run offset size data).2 = some (.ok ()) ∧
    ((c4run offset size data).1.filter
      (fun c => c.cmd == NAU8360_DSP_CMD_SET_KCS_SETUP)).length = (size + 95) / 96 ∧
    (∀ c ∈ (c4run offset size data).1,
      (c.cmd = NAU8360_DSP_CMD_SET_KCS_SETUP ∨ c.cmd = NAU8360_DSP_CMD_GET_KCS_RSLTS) ∧
      (c.cmd = NAU8360_DSP_CMD_SET_KCS_SETUP →
        c.len ≤ NAU8360_DSP_KCS_TX_MAX ∧ c.data.length = c.len)) ∧
    (((c4run offset size data).1.filter
      (fun c => c.cmd == NAU8360_DSP_CMD_SET_KCS_SETUP)).map
        (fun c => c.data)).flatten = data ∧
    (∀ i, i < (c4run offset size data).1.length →
      ((c4run offset size data).1.getD i rsltCall).cmd = NAU8360_DSP_CMD_SET_KCS_SETUP →
      i + 1 < (c4run offset size data).1.length ∧
      ((c4run offset size data).1.getD (i + 1) rsltCall).cmd =
        NAU8360_DSP_CMD_GET_KCS_RSLTS) := by
  have hrun : c4run offset size data = (expTrace data offset size, some (.ok ())) := by
    unfold c4run nau8360_dsp_kcs_setup
    rw [if_neg (by
      simp only [NAU8360_DSP_KCS_DAT_LEN_MAX, NAU8360_DSP_KCS_OFFSET_MAX] at hsz2 hoff ⊢
      push_neg
      exact ⟨by simp, by omega, by omega⟩)]
    rw [show (some data).getD [] = data from rfl]
    rw [kcsLoop_allOk size data offset 0 []]
    simp
  rw [hrun]
  have hle : size ≤ data.length := by omega
  refine ⟨rfl, expTrace_filter_set size data offset, ?_, ?_, ?_⟩
  · exact fun c hc => expTrace_calls size data offset hle c hc
  · rw [expTrace_concat size data offset hle, ← hlen]
    exact List.take_length data
  · exact fun i hi hc => expTrace_alternation size data offset i hi hc

theorem c4_chunk_split_witness :
    ((0 : Nat) < 200 ∧ (200 : Nat) ≤ NAU8360_DSP_KCS_DAT_LEN_MAX ∧
      (0 : Nat) ≤ NAU8360_DSP_KCS_OFFSET_MAX ∧
      (List.replicate 200 3).length = 200) ∧
    ((c4run 0 200 (List.replicate 200 3)).2 = some (.ok ()) ∧
      ((c4run 0 200 (List.replicate 200 3)).1.filter
        (fun c => c.cmd == NAU8360_DSP_CMD_SET_KCS_SETUP)).length = 3 ∧
      (((c4run 0 200 (List.replicate 200 3)).1.filter
        (fun c => c.cmd == NAU8360_DSP_CMD_SET_KCS_SETUP)).map
          (fun c => c.data)).flatten = List.replicate 200 3) := by
  have h := c4_chunk_split 0 200 (List.replicate 200 3) (by decide) (by decide)
    (by decide) (List.length_replicate 200 3)
  exact ⟨⟨by decide, by decide, by decide, List.length_replicate 200 3⟩,
    h.1, h.2.1, h.2.2.2.1⟩

theorem kcsLoop_err_step (e : Err) (rest : List (Except Err Unit)) (buf : List Nat)
    (off rem r : Nat) (tr : List UpCall) (h0 : rem ≠ 0)
    (hr : r < NAU8360_DSP_RETRY_MAX) :
    kcsLoop (.error e :: rest) buf off rem r tr =
      kcsLoop rest buf off rem (r + 1) (tr ++ [chunkCall off rem buf]) := by
  rw [kcsLoop.eq_def]
  simp only []
  rw [if_neg h0, if_pos hr]

theorem kcsLoop_err_abort (e : Err) (rest : List (Except Err Unit)) (buf : List Nat)
    (off rem r : Nat) (tr : List UpCall) (h0 : rem ≠ 0)
    (hr : ¬(r < NAU8360_DSP_RETRY_MAX)) :
    kcsLoop (.error e :: rest) buf off rem r tr =
      (tr ++ [chunkCall off rem buf], some (.error e)) := by
  rw [kcsLoop.eq_def]
  simp only []
  rw [if_neg h0, if_neg hr]

theorem kcsLoop_ok_err (e : Err) (rest2 : List (Except Err Unit)) (buf : List Nat)
    (off rem r : Nat) (tr : List UpCall) (h0 : rem ≠ 0) :
    kcsLoop (.ok () :: .error e :: rest2) buf off rem r tr =
      (tr ++ [chunkCall off rem buf, rsltCall], some (.error e)) := by
  rw [kcsLoop.eq_def]
  simp only []
  rw [if_neg h0]

theorem kcs_setup_caps_ok (sched : List (Except Err Unit)) (off sz : Nat)
    (buf : List Nat) (hsz : sz ≤ NAU8360_DSP_KCS_DAT_LEN_MAX)
    (hoff : off ≤ NAU8360_DSP_KCS_OFFSET_MAX) :
    nau8360_dsp_kcs_setup sched off sz (some buf) = kcsLoop sched buf off sz 0 [] := by
  unfold nau8360_dsp_kcs_setup
  rw [if_neg (by
    simp only [NAU8360_DSP_KCS_DAT_LEN_MAX, NAU8360_DSP_KCS_OFFSET_MAX] at hsz hoff ⊢
    push_neg
    exact ⟨by simp, by omega, by omega⟩)]
  rfl

/-- C5 (amended): the uploader retries a failed chunk write regardless of
the failure's error kind — Protocol included — as long as the
upload-wide retry counter (never reset between chunks) is below 3; the
fourth consecutive chunk-write failure aborts the upload with the last
error, after four chunk-write attempts in total; and a failure of the
per-chunk GET_KCS_RSLTS check aborts the whole upload at once, with no
retry. -/
theorem c5_retry_policy (e e1 e2 e3 e4 : Err) (off sz : Nat) (buf : List Nat)
    (hsz : 0 < sz) (hsz2 : sz ≤ NAU8360_DSP_KCS_DAT_LEN_MAX)
    (hoff : off ≤ NAU8360_DSP_KCS_OFFSET_MAX) :
    nau8360_dsp_kcs_setup [.error e1, .error e2, .error e3, .error e4] off sz
        (some buf) =
      ([chunkCall off sz buf, chunkCall off sz buf, chunkCall off sz buf,
        chunkCall off sz buf], some (.error e4)) ∧
    nau8360_dsp_kcs_setup (.error e :: List.replicate (2 * ((sz + 95) / 96)) (.ok ()))
        off sz (some buf) =
      (chunkCall off sz buf :: expTrace buf off sz, some (.ok ())) ∧
    nau8360_dsp_kcs_setup [.ok (), .error e] off sz (some buf) =
      ([chunkCall off sz buf, rsltCall], some (.error e)) := by
  have h0 : sz ≠ 0 := by omega
  refine ⟨?_, ?_, ?_⟩
  · rw [kcs_setup_caps_ok _ _ _ _ hsz2 hoff,
      kcsLoop_err_step e1 _ _ _ _ _ _ h0 (by decide),
      kcsLoop_err_step e2 _ _ _ _ _ _ h0 (by decide),
      kcsLoop_err_step e3 _ _ _ _ _ _ h0 (by decide),
      kcsLoop_err_abort e4 _ _ _ _ _ _ h0 (by decide)]
    simp
  · rw [kcs_setup_caps_ok _ _ _ _ hsz2 hoff,
      kcsLoop_err_step e _ _ _ _ _ _ h0 (by decide),
      kcsLoop_allOk sz buf off 1]
    simp
  · rw [kcs_setup_caps_ok _ _ _ _ hsz2 hoff, kcsLoop_ok_err e _ _ _ _ _ _ h0]
    simp

/-- C5 counterexample: a chunk write failing with `Protocol` is retried —
the trace of an upload whose chunk writes keep failing with `Protocol`
contains four chunk-write attempts before the abort, where the claim
allows one attempt (Protocol never retried) and at most three. -/
theorem c5_counterexample :
    nau8360_dsp_kcs_setup [.error .protocol, .error .protocol, .error .protocol,
        .error .protocol] 0 4 (some [1, 2, 3, 4]) =
      ([chunkCall 0 4 [1, 2, 3, 4], chunkCall 0 4 [1, 2, 3, 4],
        chunkCall 0 4 [1, 2, 3, 4], chunkCall 0 4 [1, 2, 3, 4]],
        some (.error .protocol)) ∧
    (4 : Nat) ≠ 1 ∧ ¬((4 : Nat) ≤ 3) :=
  ⟨rfl, by decide, by decide⟩

theorem c5_retry_policy_witness :
    ((0 : Nat) < 4 ∧ (4 : Nat) ≤ NAU8360_DSP_KCS_DAT_LEN_MAX ∧
      (0 : Nat) ≤ NAU8360_DSP_KCS_OFFSET_MAX) ∧
    (nau8360_dsp_kcs_setup [.error .protocol, .error .einval, .error .timeout,
        .error (.ioErr (-5))] 0 4 (some [1, 2, 3, 4]) =
      ([chunkCall 0 4 [1, 2, 3, 4], chunkCall 0 4 [1, 2, 3, 4],
        chunkCall 0 4 [1, 2, 3, 4], chunkCall 0 4 [1, 2, 3, 4]],
        some (.error (.ioErr (-5)))) ∧
    nau8360_dsp_kcs_setup (.error .protocol ::
        List.replicate (2 * ((4 + 95) / 96)) (.ok ())) 0 4 (some [1, 2, 3, 4]) =
      (chunkCall 0 4 [1, 2, 3, 4] :: expTrace [1, 2, 3, 4] 0 4, some (.ok ())) ∧
    nau8360_dsp_kcs_setup [.ok (), .error .protocol] 0 4 (some [1, 2, 3, 4]) =
      ([chunkCall 0 4 [1, 2, 3, 4], rsltCall], some (.error .protocol))) :=
  ⟨⟨by decide, by decide, by decide⟩,
    c5_retry_policy .protocol .protocol .einval .timeout (.ioErr (-5)) 0 4 [1, 2, 3, 4]
      (by decide) (by decide) (by decide)⟩

theorem c1_encode_decode_roundtrip_witness :
    (nau8360_dsp_commands 0x7 = true ∧ (3 : Nat) < 65536 ∧
      (∀ b ∈ ([1, 2, 3, 4, 5] : List Nat), b < 256) ∧
      ([1, 2, 3, 4, 5] : List Nat).length ≤ 400) ∧
    msgDecode (nau8360_dsp_cmd_table 0x7).msg_param
        (massageWords (nau8360_dsp_cmd_table 0x7)
          (sendFragLen (nau8360_dsp_cmd_table 0x7) 5) 3 5 [1, 2, 3, 4, 5]) =
      some (0x7, sendFragLen (nau8360_dsp_cmd_table 0x7) 5,
        some (3, 5, [1, 2, 3, 4, 5], 4 * ((5 + 3) / 4) - 5)) :=
  ⟨⟨by decide, by decide, by decide, by decide⟩,
    c1_encode_decode_roundtrip 0x7 3 [1, 2, 3, 4, 5] (by decide) (by decide)
      (by decide) (by decide)⟩

theorem c2_fragment_invariant_witness :
    (∀ b ∈ ([1, 2, 3] : List Nat), b < 256) ∧
    (chunk4 [1, 2, 3]).length = 1 ∧
    ((chunk4 [1, 2, 3]).map wordBytes).flatten = [1, 2, 3] ++ List.replicate 1 0 :=
  ⟨by decide, (c2_fragment_invariant 0 [1, 2, 3]).1,
    (c2_fragment_invariant 0 [1, 2, 3]).2.2.2.2.2 (by decide)⟩
